import Mathlib

/-!
Shallow embedding of the y4m (YUV4MPEG2) encoder/decoder library
(`src/lib.rs` of image-rs/y4m), together with theorems settling the
specification claims.

Modelling conventions:
* Bytes are `Nat` values (0..255); a byte stream is a `List Nat`, read from
  the front.  A `Read`er is modelled by passing the remaining stream
  explicitly (the `Decoder` owns its stream in a `reader` field); a `Write`r
  is modelled by an accumulating `writer : List Nat` field.
* Rust `usize` arithmetic is modelled by `Nat`; `usize::MAX` bounds appear
  explicitly where Rust's integer parsing rejects overflowing literals.
* Fallible operations return `Except Error _` mirroring `Result<_, Error>`.
-/

namespace Y4m

/-- Decidable equality of `Except` results, for evaluating the model at
concrete inputs. -/
instance exceptDecidableEq {ε α : Type} [DecidableEq ε] [DecidableEq α] :
    DecidableEq (Except ε α)
  | .ok x, .ok y =>
    if h : x = y then .isTrue (by rw [h]) else .isFalse (by intro hc; cases hc; exact h rfl)
  | .ok _, .error _ => .isFalse (by intro hc; cases hc)
  | .error _, .ok _ => .isFalse (by intro hc; cases hc)
  | .error e1, .error e2 =>
    if h : e1 = e2 then .isTrue (by rw [h]) else .isFalse (by intro hc; cases hc; exact h rfl)

/-- Models `io::ErrorKind` (only the distinction the library inspects:
`UnexpectedEof` versus everything else). -/
inductive IoErrorKind where
  | UnexpectedEof
  | Other
  deriving DecidableEq, Repr

/-- Models `enum ParseError` from `src/lib.rs`. -/
inductive ParseError where
  | InvalidY4M
  | Int
  | Utf8
  | General
  deriving DecidableEq, Repr

/-- Models `enum Error` from `src/lib.rs`. -/
inductive Error where
  | EOF
  | BadInput
  | UnknownColorspace
  | ParseError (e : ParseError)
  | IoError (k : IoErrorKind)
  | OutOfMemory
  deriving DecidableEq, Repr

/-- Models `impl From<io::Error> for Error`: an `UnexpectedEof` transport
error is normalized to `Error::EOF`, every other kind is passed through as
`Error::IoError`. -/
def Error.fromIo : IoErrorKind → Error
  | .UnexpectedEof => .EOF
  | k => .IoError k

/-- `const MAX_PARAMS_SIZE: usize = 1024`. -/
def MAX_PARAMS_SIZE : Nat := 1024

/-- `const FILE_MAGICK: &[u8] = b"YUV4MPEG2 "` (ASCII bytes, trailing space
included). -/
def FILE_MAGICK : List Nat := [89, 85, 86, 52, 77, 80, 69, 71, 50, 32]

/-- `const FRAME_MAGICK: &[u8] = b"FRAME"` (ASCII bytes). -/
def FRAME_MAGICK : List Nat := [70, 82, 65, 77, 69]

/-- `const TERMINATOR: u8 = 0x0A`. -/
def TERMINATOR : Nat := 10

/-- `const FIELD_SEP: u8 = b' '`. -/
def FIELD_SEP : Nat := 32

/-- `const RATIO_SEP: u8 = b':'`. -/
def RATIO_SEP : Nat := 58

/-- Models `EnhancedRead::read_until` from `src/lib.rs`: read one byte at a
time into a buffer of capacity `cap` until byte `ch` appears.  Returns the
bytes collected before `ch` together with the unread remainder of the
stream.  If the capacity is exhausted before `ch` is seen the result is
`ParseError::General`; if the stream ends (a zero-byte read) the result is
`Error::EOF`. -/
def read_until (ch : Nat) : Nat → List Nat → Except Error (List Nat × List Nat)
  | 0, _ => .error (.ParseError .General)
  | _ + 1, [] => .error .EOF
  | cap + 1, b :: rest =>
    if b = ch then .ok ([], rest)
    else
      match read_until ch cap rest with
      | .ok (collected, rest') => .ok (b :: collected, rest')
      | .error e => .error e

/-- The standard UTF-8 acceptance automaton, one byte per step.  The state
is `none` when the next byte must be a lead byte, and `some (k, lo, hi)`
when the next byte must be a continuation byte in `[lo, hi]` followed by
`k` further continuation bytes in `[0x80, 0xBF]`.  The lead-byte
transitions encode RFC 3629: ASCII passes through, `0xC2..0xDF` start
2-byte sequences, `0xE0`/`0xED`/other `0xE1..0xEF` start 3-byte sequences
(with the overlong and surrogate exclusions on the first continuation
byte), `0xF0`/`0xF4`/`0xF1..0xF3` start 4-byte sequences, and every other
byte (stray continuations, `0xC0`/`0xC1`, `> 0xF4`) is rejected. -/
def utf8_run : Option (Nat × Nat × Nat) → List Nat → Bool
  | st, [] => st.isNone
  | st, b :: rest =>
    match st with
    | none =>
      if b ≤ 127 then utf8_run none rest
      else if 194 ≤ b && b ≤ 223 then utf8_run (some (0, 128, 191)) rest
      else if b = 224 then utf8_run (some (1, 160, 191)) rest
      else if b = 237 then utf8_run (some (1, 128, 159)) rest
      else if 225 ≤ b && b ≤ 239 then utf8_run (some (1, 128, 191)) rest
      else if b = 240 then utf8_run (some (2, 144, 191)) rest
      else if b = 244 then utf8_run (some (2, 128, 143)) rest
      else if 241 ≤ b && b ≤ 243 then utf8_run (some (2, 128, 191)) rest
      else false
    | some (k, lo, hi) =>
      if lo ≤ b && b ≤ hi then
        match k with
        | 0 => utf8_run none rest
        | k' + 1 => utf8_run (some (k', 128, 191)) rest
      else false

/-- Models validity checking of `str::from_utf8`: RFC 3629 well-formedness
of a byte sequence. -/
def utf8_valid (l : List Nat) : Bool := utf8_run none l

/-- True of an ASCII decimal digit byte (`b'0'..=b'9'`). -/
def is_digit (b : Nat) : Bool := 48 ≤ b && b ≤ 57

/-- Numeric value of a most-significant-first ASCII digit byte list. -/
def digits_val (ds : List Nat) : Nat := ds.foldl (fun acc d => acc * 10 + (d - 48)) 0

/-- `usize::MAX` on a 64-bit target. -/
def USIZE_MAX : Nat := 2 ^ 64 - 1

/-- Models `str::parse::<usize>()` on the characters of an already
UTF-8-valid byte sequence: an optional leading `+` sign followed by one or
more ASCII decimal digits whose value fits in `usize`; anything else fails
(`None`). -/
def parse_usize (bs : List Nat) : Option Nat :=
  let ds := if bs.head? = some 43 then bs.tail else bs
  if ds.isEmpty then none
  else if ds.all is_digit then
    let n := digits_val ds
    if n ≤ USIZE_MAX then some n else none
  else none

/-- Models `fn parse_bytes` from `src/lib.rs`:
`Ok(str::from_utf8(buf)?.parse()?)`.  UTF-8 invalidity maps to
`ParseError::Utf8`, an integer-parse failure to `ParseError::Int` (via the
`From` conversions of the error types). -/
def parse_bytes (buf : List Nat) : Except Error Nat :=
  if utf8_valid buf then
    match parse_usize buf with
    | some n => .ok n
    | none => .error (.ParseError .Int)
  else .error (.ParseError .Utf8)

/-- Models slice `split` with predicate `|&b| b == sep` as used on the raw
parameter bytes: splits at every separator byte, keeping empty pieces
(Rust's `split` on an empty slice yields one empty piece). -/
def split_sep (sep : Nat) : List Nat → List (List Nat)
  | [] => [[]]
  | b :: rest =>
    if b = sep then [] :: split_sep sep rest
    else
      match split_sep sep rest with
      | [] => [[b]]
      | t :: ts => (b :: t) :: ts

/-- Models `value.splitn(2, |&b| b == RATIO_SEP)` collected to a `Vec`:
at most one split, at the first occurrence of `sep`. -/
def splitn2 (sep : Nat) : List Nat → List (List Nat)
  | [] => [[]]
  | b :: rest =>
    if b = sep then [[], rest]
    else
      match splitn2 sep rest with
      | [] => [[b]]
      | p :: ps => (b :: p) :: ps

/-- Models `struct Ratio { num: usize, den: usize }`. -/
@[ext]
structure Ratio where
  num : Nat
  den : Nat
  deriving DecidableEq, Repr

/-- Models `Ratio::new`. -/
def Ratio.new (num den : Nat) : Ratio := ⟨num, den⟩

/-- Models `Ratio::parse` from `src/lib.rs`: split at most once on `b':'`;
if that did not produce exactly two parts fail with `ParseError::General`,
otherwise parse both parts with `parse_bytes`. -/
def Ratio.parse (value : List Nat) : Except Error Ratio :=
  match splitn2 RATIO_SEP value with
  | [a, b] => do
    let num ← parse_bytes a
    let den ← parse_bytes b
    .ok (Ratio.new num den)
  | _ => .error (.ParseError .General)

/-- Byte rendering of a `usize` in decimal (Rust `Display` for `usize`),
via a fuel-indexed helper so that the definition is structurally
recursive. -/
def nat_to_bytes_aux : Nat → Nat → List Nat → List Nat
  | 0, _, acc => acc
  | fuel + 1, n, acc =>
    if n < 10 then (n % 10 + 48) :: acc
    else nat_to_bytes_aux fuel (n / 10) ((n % 10 + 48) :: acc)

/-- Decimal ASCII rendering of a `Nat` (what Rust's `write!("{}", n)` emits
for a `usize`). -/
def nat_to_bytes (n : Nat) : List Nat := nat_to_bytes_aux (n + 1) n []

/-- Models `impl fmt::Display for Ratio`: `write!(f, "{}:{}", num, den)`. -/
def Ratio.display (r : Ratio) : List Nat :=
  nat_to_bytes r.num ++ RATIO_SEP :: nat_to_bytes r.den

/-- Models `enum Colorspace` from `src/lib.rs`. -/
inductive Colorspace where
  | Cmono
  | Cmono12
  | C420
  | C420p10
  | C420p12
  | C420jpeg
  | C420paldv
  | C420mpeg2
  | C422
  | C422p10
  | C422p12
  | C444
  | C444p10
  | C444p12
  deriving DecidableEq, Repr

/-- Models `Colorspace::get_bit_depth`. -/
def Colorspace.get_bit_depth : Colorspace → Nat
  | .Cmono | .C420 | .C422 | .C444 | .C420jpeg | .C420paldv | .C420mpeg2 => 8
  | .C420p10 | .C422p10 | .C444p10 => 10
  | .Cmono12 | .C420p12 | .C422p12 | .C444p12 => 12

/-- Models `Colorspace::get_bytes_per_sample`. -/
def Colorspace.get_bytes_per_sample (c : Colorspace) : Nat :=
  if c.get_bit_depth ≤ 8 then 1 else 2

/-- The colorspace tag value as it appears in a `C` header token (ASCII
bytes), e.g. `"420p10"` for `C420p10`.  This is the derived `Debug` name of
the variant with its leading `C` stripped. -/
def Colorspace.tag_value : Colorspace → List Nat
  | .Cmono => [109, 111, 110, 111]
  | .Cmono12 => [109, 111, 110, 111, 49, 50]
  | .C420 => [52, 50, 48]
  | .C420p10 => [52, 50, 48, 112, 49, 48]
  | .C420p12 => [52, 50, 48, 112, 49, 50]
  | .C420jpeg => [52, 50, 48, 106, 112, 101, 103]
  | .C420paldv => [52, 50, 48, 112, 97, 108, 100, 118]
  | .C420mpeg2 => [52, 50, 48, 109, 112, 101, 103, 50]
  | .C422 => [52, 50, 50]
  | .C422p10 => [52, 50, 50, 112, 49, 48]
  | .C422p12 => [52, 50, 50, 112, 49, 50]
  | .C444 => [52, 52, 52]
  | .C444p10 => [52, 52, 52, 112, 49, 48]
  | .C444p12 => [52, 52, 52, 112, 49, 50]

/-- Models `write!(writer, "{:?}", colorspace)`: the derived `Debug`
formatting prints the variant identifier, which is a `C` followed by the
tag value (`Cmono` prints as `"Cmono"`, `C420p10` as `"C420p10"`, ...). -/
def Colorspace.debug_bytes (c : Colorspace) : List Nat := 67 :: c.tag_value

/-- Models the colorspace table in `Decoder::new_with_limits` matching the
value bytes of a `C` token (`b"mono" => Cmono`, ..., unrecognized value
`None`, which the caller turns into `Error::UnknownColorspace`). -/
def cs_of_value (value : List Nat) : Option Colorspace :=
  if value = [109, 111, 110, 111] then some .Cmono
  else if value = [109, 111, 110, 111, 49, 50] then some .Cmono12
  else if value = [52, 50, 48] then some .C420
  else if value = [52, 50, 48, 112, 49, 48] then some .C420p10
  else if value = [52, 50, 48, 112, 49, 50] then some .C420p12
  else if value = [52, 50, 50] then some .C422
  else if value = [52, 50, 50, 112, 49, 48] then some .C422p10
  else if value = [52, 50, 50, 112, 49, 50] then some .C422p12
  else if value = [52, 52, 52] then some .C444
  else if value = [52, 52, 52, 112, 49, 48] then some .C444p10
  else if value = [52, 52, 52, 112, 49, 50] then some .C444p12
  else if value = [52, 50, 48, 106, 112, 101, 103] then some .C420jpeg
  else if value = [52, 50, 48, 112, 97, 108, 100, 118] then some .C420paldv
  else if value = [52, 50, 48, 109, 112, 101, 103, 50] then some .C420mpeg2
  else none

/-- Models `fn get_plane_sizes` from `src/lib.rs`. -/
def get_plane_sizes (width height : Nat) (colorspace : Colorspace) : Nat × Nat × Nat :=
  let y_plane_size := width * height * colorspace.get_bytes_per_sample
  let c420_chroma_size :=
    ((width + 1) / 2) * ((height + 1) / 2) * colorspace.get_bytes_per_sample
  let c422_chroma_size := ((width + 1) / 2) * height * colorspace.get_bytes_per_sample
  match colorspace with
  | .Cmono | .Cmono12 => (y_plane_size, 0, 0)
  | .C420 | .C420p10 | .C420p12 | .C420jpeg | .C420paldv | .C420mpeg2 =>
    (y_plane_size, c420_chroma_size, c420_chroma_size)
  | .C422 | .C422p10 | .C422p12 =>
    (y_plane_size, c422_chroma_size, c422_chroma_size)
  | .C444 | .C444p10 | .C444p12 => (y_plane_size, y_plane_size, y_plane_size)

/-- Total frame size `y_len + u_len + v_len` for the given geometry,
in unbounded arithmetic (the mathematical value of the formulas). -/
def plane_sum (width height : Nat) (colorspace : Colorspace) : Nat :=
  (get_plane_sizes width height colorspace).1 +
    (get_plane_sizes width height colorspace).2.1 +
    (get_plane_sizes width height colorspace).2.2

/-- `2^64`: the modulus of `usize` arithmetic on a 64-bit target. -/
def USIZE_MOD : Nat := 2 ^ 64

/-- `usize` multiplication as executed by a release build: two's-complement
wrap-around modulo `2^64` on overflow. -/
def usize_mul (a b : Nat) : Nat := a * b % USIZE_MOD

/-- `usize` addition as executed by a release build: two's-complement
wrap-around modulo `2^64` on overflow. -/
def usize_add (a b : Nat) : Nat := (a + b) % USIZE_MOD

/-- Models `fn get_plane_sizes` exactly as executed by a release build on a
64-bit target: the same products as `get_plane_sizes`, but with every
`usize` addition and multiplication wrapping modulo `2^64` (a debug build
would panic at the overflow instead). -/
def get_plane_sizes_u (width height : Nat) (colorspace : Colorspace) : Nat × Nat × Nat :=
  let y_plane_size := usize_mul (usize_mul width height) colorspace.get_bytes_per_sample
  let c420_chroma_size :=
    usize_mul (usize_mul (usize_add width 1 / 2) (usize_add height 1 / 2))
      colorspace.get_bytes_per_sample
  let c422_chroma_size :=
    usize_mul (usize_mul (usize_add width 1 / 2) height) colorspace.get_bytes_per_sample
  match colorspace with
  | .Cmono | .Cmono12 => (y_plane_size, 0, 0)
  | .C420 | .C420p10 | .C420p12 | .C420jpeg | .C420paldv | .C420mpeg2 =>
    (y_plane_size, c420_chroma_size, c420_chroma_size)
  | .C422 | .C422p10 | .C422p12 =>
    (y_plane_size, c422_chroma_size, c422_chroma_size)
  | .C444 | .C444p10 | .C444p12 => (y_plane_size, y_plane_size, y_plane_size)

/-- The frame size `y_len + u_len + v_len` as computed by a release build
from the wrapped plane sizes: both `usize` additions wrap modulo `2^64`. -/
def plane_sum_u (width height : Nat) (colorspace : Colorspace) : Nat :=
  usize_add
    (usize_add (get_plane_sizes_u width height colorspace).1
      (get_plane_sizes_u width height colorspace).2.1)
    (get_plane_sizes_u width height colorspace).2.2

/-- Models `struct Limits`. -/
structure Limits where
  bytes : Nat
  deriving DecidableEq, Repr

/-- Models `impl Default for Limits`: 1 GiB. -/
def Limits.default : Limits := ⟨1024 * 1024 * 1024⟩

/-- Accumulator of the prologue token loop in `Decoder::new_with_limits`
(the local mutable variables `width`, `height`, `framerate`,
`pixel_aspect`, `colorspace`). -/
structure HeaderAcc where
  width : Nat
  height : Nat
  framerate : Ratio
  pixel_aspect : Ratio
  colorspace : Option Colorspace
  deriving DecidableEq, Repr

/-- Initial values of the loop variables: width and height `0`, framerate
`25:1`, pixel aspect `1:1`, no colorspace seen. -/
def init_acc : HeaderAcc := ⟨0, 0, Ratio.new 25 1, Ratio.new 1 1, none⟩

/-- One iteration of the prologue token loop: an empty token is skipped,
otherwise the first byte selects the tag (`W`/`H`/`F`/`A`/`C`, anything
else ignored) and the rest is its value. -/
def parse_param (acc : HeaderAcc) (param : List Nat) : Except Error HeaderAcc :=
  match param with
  | [] => .ok acc
  | name :: value =>
    if name = 87 then
      match parse_bytes value with
      | .ok w => .ok { acc with width := w }
      | .error e => .error e
    else if name = 72 then
      match parse_bytes value with
      | .ok h => .ok { acc with height := h }
      | .error e => .error e
    else if name = 70 then
      match Ratio.parse value with
      | .ok f => .ok { acc with framerate := f }
      | .error e => .error e
    else if name = 65 then
      match Ratio.parse value with
      | .ok a => .ok { acc with pixel_aspect := a }
      | .error e => .error e
    else if name = 67 then
      match cs_of_value value with
      | some c => .ok { acc with colorspace := some c }
      | none => .error .UnknownColorspace
    else .ok acc

/-- The prologue token loop of `Decoder::new_with_limits`, over the token
list produced by splitting the raw parameters on the space byte. -/
def parse_params : List (List Nat) → HeaderAcc → Except Error HeaderAcc
  | [], acc => .ok acc
  | t :: ts, acc =>
    match parse_param acc t with
    | .ok acc' => parse_params ts acc'
    | .error e => .error e

/-- Models `struct Frame` (borrowed planes copied into lists, plus the
optional raw frame parameters). -/
structure Frame where
  y : List Nat
  u : List Nat
  v : List Nat
  raw_params : Option (List Nat)
  deriving DecidableEq, Repr

/-- Models `struct Decoder`: the owned reader (remaining stream), the
frame-scratch buffer and the parsed prologue fields.  (`params_buf` is pure
scratch and has no observable content between calls, so it is not carried.) -/
structure Decoder where
  reader : List Nat
  frame_buf : List Nat
  raw_params : List Nat
  width : Nat
  height : Nat
  framerate : Ratio
  pixel_aspect : Ratio
  colorspace : Colorspace
  y_len : Nat
  u_len : Nat
  deriving DecidableEq, Repr

/-- Models `Decoder::new_with_limits` from `src/lib.rs`: scan the stream up
to the first terminator (capacity `MAX_PARAMS_SIZE`), check the
`YUV4MPEG2 ` magic, run the token loop, default the colorspace to `C420`,
reject zero width or height with `ParseError::General`, check the plane-size
sum against `limits.bytes` (failing with `OutOfMemory` before the
frame-scratch buffer is built), and assemble the `Decoder`.  The plane
sizes and their sum are the `usize` values a release build computes, so
they wrap modulo `2^64` on overflow (`get_plane_sizes_u`/`usize_add`). -/
def Decoder.new_with_limits (stream : List Nat) (limits : Limits) :
    Except Error Decoder :=
  match read_until TERMINATOR MAX_PARAMS_SIZE stream with
  | .error e => .error e
  | .ok (collected, rest) =>
    if collected.length < FILE_MAGICK.length ∨ ¬ FILE_MAGICK.isPrefixOf collected then
      .error (.ParseError .InvalidY4M)
    else
      let raw_params := collected.drop FILE_MAGICK.length
      match parse_params (split_sep FIELD_SEP raw_params) init_acc with
      | .error e => .error e
      | .ok acc =>
        let colorspace := acc.colorspace.getD .C420
        if acc.width = 0 ∨ acc.height = 0 then
          .error (.ParseError .General)
        else
          let sizes := get_plane_sizes_u acc.width acc.height colorspace
          let frame_size := usize_add (usize_add sizes.1 sizes.2.1) sizes.2.2
          if frame_size > limits.bytes then
            .error .OutOfMemory
          else
            .ok {
              reader := rest
              frame_buf := List.replicate frame_size 0
              raw_params := raw_params
              width := acc.width
              height := acc.height
              framerate := acc.framerate
              pixel_aspect := acc.pixel_aspect
              colorspace := colorspace
              y_len := sizes.1
              u_len := sizes.2.1
            }

/-- Models `Decoder::new`: `new_with_limits` with the default limits. -/
def Decoder.new (stream : List Nat) : Except Error Decoder :=
  Decoder.new_with_limits stream Limits.default

/-- Models `Decoder::read_frame` from `src/lib.rs`: scan to the next
terminator, check the `FRAME` magic, extract the optional raw frame
parameters (a space must follow the magic when any bytes do), read exactly
`frame_buf.len()` payload bytes (`read_exact`, whose shortfall is
`UnexpectedEof`, hence `Error::EOF`), and return the three plane slices of
the refilled frame buffer in order Y, U, V. -/
def Decoder.read_frame (d : Decoder) : Except Error (Frame × Decoder) :=
  match read_until TERMINATOR MAX_PARAMS_SIZE d.reader with
  | .error e => .error e
  | .ok (collected, rest) =>
    if collected.length < FRAME_MAGICK.length ∨ ¬ FRAME_MAGICK.isPrefixOf collected then
      .error (.ParseError .InvalidY4M)
    else
      match (if FRAME_MAGICK.length < collected.length then
               if collected[FRAME_MAGICK.length]? = some FIELD_SEP then
                 Except.ok (some (collected.drop (FRAME_MAGICK.length + 1)))
               else Except.error (Error.ParseError ParseError.InvalidY4M)
             else Except.ok none : Except Error (Option (List Nat))) with
      | .error e => .error e
      | .ok raw_params =>
        if d.frame_buf.length ≤ rest.length then
          let buf := rest.take d.frame_buf.length
          .ok (⟨buf.take d.y_len, (buf.drop d.y_len).take d.u_len,
                buf.drop (d.y_len + d.u_len), raw_params⟩,
               { d with reader := rest.drop d.frame_buf.length, frame_buf := buf })
        else
          .error .EOF

/-- Iterated `read_frame`: read `n` successive frames. -/
def Decoder.read_frames (d : Decoder) : Nat → Except Error (List Frame × Decoder)
  | 0 => .ok ([], d)
  | n + 1 =>
    match d.read_frame with
    | .error e => .error e
    | .ok (f, d') =>
      match d'.read_frames n with
      | .error e => .error e
      | .ok (fs, d'') => .ok (f :: fs, d'')

/-- Models `struct VendorExtensionString` (newtype over validated bytes). -/
structure VendorExtensionString where
  val : List Nat
  deriving DecidableEq, Repr

/-- Models `VendorExtensionString::new`: rejects any byte sequence
containing a space byte with `Error::BadInput`. -/
def VendorExtensionString.new (value : List Nat) : Except Error VendorExtensionString :=
  if FIELD_SEP ∈ value then .error .BadInput else .ok ⟨value⟩

/-- Models `struct EncoderBuilder`. -/
structure EncoderBuilder where
  width : Nat
  height : Nat
  framerate : Ratio
  pixel_aspect : Ratio
  colorspace : Colorspace
  vendor_extensions : List (List Nat)
  deriving DecidableEq, Repr

/-- Models `EncoderBuilder::new`: pixel aspect defaults to `1:1`,
colorspace to `C420`, no vendor extensions. -/
def EncoderBuilder.new (width height : Nat) (framerate : Ratio) : EncoderBuilder :=
  ⟨width, height, framerate, Ratio.new 1 1, .C420, []⟩

/-- Models `EncoderBuilder::with_colorspace`. -/
def EncoderBuilder.with_colorspace (b : EncoderBuilder) (c : Colorspace) : EncoderBuilder :=
  { b with colorspace := c }

/-- Models `EncoderBuilder::with_pixel_aspect`. -/
def EncoderBuilder.with_pixel_aspect (b : EncoderBuilder) (a : Ratio) : EncoderBuilder :=
  { b with pixel_aspect := a }

/-- Models `EncoderBuilder::append_vendor_extension` (`Vec::push`, i.e.
append at the back). -/
def EncoderBuilder.append_vendor_extension (b : EncoderBuilder)
    (x : VendorExtensionString) : EncoderBuilder :=
  { b with vendor_extensions := b.vendor_extensions ++ [x.val] }

/-- Models `struct Encoder`: the accumulated output stream and the three
expected plane sizes. -/
structure Encoder where
  writer : List Nat
  y_len : Nat
  u_len : Nat
  v_len : Nat
  deriving DecidableEq, Repr

/-- Models `EncoderBuilder::write_header` from `src/lib.rs`: emit
`FILE_MAGICK`, then `W<width> H<height> F<framerate>`, then ` A<aspect>`
only when the pixel aspect is not `1:1` (componentwise), then ` X<bytes>`
for each vendor extension in order, then a space and the `Debug` name of
the colorspace, then the terminator; compute the plane sizes and build the
`Encoder`.  (With a pure list writer the underlying writes cannot fail, so
the result is total.) -/
def EncoderBuilder.write_header (b : EncoderBuilder) : Encoder :=
  let out := FILE_MAGICK
    ++ [87] ++ nat_to_bytes b.width
    ++ [FIELD_SEP, 72] ++ nat_to_bytes b.height
    ++ [FIELD_SEP, 70] ++ b.framerate.display
    ++ (if b.pixel_aspect.num ≠ 1 ∨ b.pixel_aspect.den ≠ 1 then
          [FIELD_SEP, 65] ++ b.pixel_aspect.display
        else [])
    ++ (b.vendor_extensions.map (fun x => [FIELD_SEP, 88] ++ x)).flatten
    ++ [FIELD_SEP] ++ b.colorspace.debug_bytes
    ++ [TERMINATOR]
  let sizes := get_plane_sizes b.width b.height b.colorspace
  ⟨out, sizes.1, sizes.2.1, sizes.2.2⟩

/-- Models `Encoder::write_frame` from `src/lib.rs`: if any plane length
differs from the stored expected size, fail with `BadInput` leaving the
writer untouched (the validation precedes every write); otherwise append
`FRAME`, then — only when raw parameters are present — a space and those
bytes verbatim, then the terminator, then the three planes in order Y, U,
V. -/
def Encoder.write_frame (e : Encoder) (f : Frame) : Encoder × Except Error Unit :=
  if f.y.length ≠ e.y_len ∨ f.u.length ≠ e.u_len ∨ f.v.length ≠ e.v_len then
    (e, .error .BadInput)
  else
    ({ e with writer := e.writer ++ FRAME_MAGICK
        ++ (match f.raw_params with
            | some params => FIELD_SEP :: params
            | none => [])
        ++ [TERMINATOR] ++ f.y ++ f.u ++ f.v },
     .ok ())

/-- Iterated `write_frame`, stopping at the first error. -/
def Encoder.write_frames (e : Encoder) : List Frame → Except Error Encoder
  | [] => .ok e
  | f :: fs =>
    match e.write_frame f with
    | (e', .ok _) => e'.write_frames fs
    | (_, .error err) => .error err

/-- The byte sequence a successful `write_frame` appends to the stream for
frame `f` (the `FRAME` record of `f`). -/
def frame_payload (f : Frame) : List Nat :=
  FRAME_MAGICK
    ++ (match f.raw_params with
        | some params => FIELD_SEP :: params
        | none => [])
    ++ [TERMINATOR] ++ f.y ++ f.u ++ f.v

/-- The raw parameter bytes of the header `write_header` emits for a
builder with default pixel aspect and no vendor extensions: everything
between the `"YUV4MPEG2 "` magic and the terminator. -/
def header_params (w h : Nat) (fr : Ratio) (c : Colorspace) : List Nat :=
  [87] ++ nat_to_bytes w ++ [32, 72] ++ nat_to_bytes h ++ [32, 70] ++ fr.display
    ++ [32] ++ (67 :: c.tag_value)

/-! ### Auxiliary lemmas about the stream-scanning primitives -/

theorem read_until_terminated (ch : Nat) :
    ∀ (l : List Nat) (cap : Nat) (rest : List Nat),
      (∀ b ∈ l, b ≠ ch) → l.length < cap →
      read_until ch cap (l ++ ch :: rest) = .ok (l, rest) := by
  intro l
  induction l with
  | nil =>
    intro cap rest _ hcap
    cases cap with
    | zero => simp at hcap
    | succ cap => simp [read_until]
  | cons b l ih =>
    intro cap rest hne hcap
    cases cap with
    | zero => simp at hcap
    | succ cap =>
      have hb : b ≠ ch := hne b (by simp)
      have hstep := ih cap rest (fun x hx => hne x (by simp [hx]))
        (by simpa using Nat.lt_of_succ_lt_succ hcap)
      simp [read_until, hb, hstep]

theorem read_until_capacity (ch : Nat) :
    ∀ (cap : Nat) (l rest : List Nat),
      l.length = cap → (∀ b ∈ l, b ≠ ch) →
      read_until ch cap (l ++ rest) = .error (.ParseError .General) := by
  intro cap
  induction cap with
  | zero => intro l rest _ _; simp [read_until]
  | succ cap ih =>
    intro l rest hlen hne
    cases l with
    | nil => simp at hlen
    | cons b l =>
      have hb : b ≠ ch := hne b (by simp)
      have hstep := ih l rest (by simpa using hlen) (fun x hx => hne x (by simp [hx]))
      simp [read_until, hb, hstep]

theorem read_until_eof (ch : Nat) :
    ∀ (l : List Nat) (cap : Nat),
      (∀ b ∈ l, b ≠ ch) → l.length < cap →
      read_until ch cap l = .error .EOF := by
  intro l
  induction l with
  | nil =>
    intro cap _ hcap
    cases cap with
    | zero => simp at hcap
    | succ cap => simp [read_until]
  | cons b l ih =>
    intro cap hne hcap
    cases cap with
    | zero => simp at hcap
    | succ cap =>
      have hb : b ≠ ch := hne b (by simp)
      have hstep := ih cap (fun x hx => hne x (by simp [hx]))
        (by simpa using Nat.lt_of_succ_lt_succ hcap)
      simp [read_until, hb, hstep]

theorem split_sep_of_not_mem (sep : Nat) :
    ∀ (a : List Nat), sep ∉ a → split_sep sep a = [a] := by
  intro a
  induction a with
  | nil => intro _; rfl
  | cons b l ih =>
    intro h
    rw [List.mem_cons] at h
    push_neg at h
    have hb : b ≠ sep := Ne.symm h.1
    simp [split_sep, hb, ih h.2]

theorem split_sep_append (sep : Nat) :
    ∀ (a rest : List Nat), sep ∉ a →
      split_sep sep (a ++ sep :: rest) = a :: split_sep sep rest := by
  intro a
  induction a with
  | nil => intro rest _; simp [split_sep]
  | cons b l ih =>
    intro rest h
    rw [List.mem_cons] at h
    push_neg at h
    have hb : b ≠ sep := Ne.symm h.1
    simp [split_sep, hb, ih rest h.2]

theorem splitn2_of_not_mem (sep : Nat) :
    ∀ (v : List Nat), sep ∉ v → splitn2 sep v = [v] := by
  intro v
  induction v with
  | nil => intro _; rfl
  | cons b l ih =>
    intro h
    rw [List.mem_cons] at h
    push_neg at h
    have hb : b ≠ sep := Ne.symm h.1
    simp [splitn2, hb, ih h.2]

theorem splitn2_append (sep : Nat) :
    ∀ (a b : List Nat), sep ∉ a →
      splitn2 sep (a ++ sep :: b) = [a, b] := by
  intro a
  induction a with
  | nil => intro b _; simp [splitn2]
  | cons x l ih =>
    intro b h
    rw [List.mem_cons] at h
    push_neg at h
    have hx : x ≠ sep := Ne.symm h.1
    simp [splitn2, hx, ih b h.2]

theorem utf8_run_ascii :
    ∀ (l : List Nat), (∀ b ∈ l, b ≤ 127) → utf8_run none l = true := by
  intro l
  induction l with
  | nil => intro _; rfl
  | cons b l ih =>
    intro h
    have hb : b ≤ 127 := h b (by simp)
    simp only [utf8_run]
    rw [if_pos hb]
    exact ih (fun x hx => h x (by simp [hx]))

theorem utf8_valid_ascii (l : List Nat) (h : ∀ b ∈ l, b ≤ 127) : utf8_valid l = true :=
  utf8_run_ascii l h

/-! ### Decimal rendering round-trips with integer parsing -/

theorem nat_to_bytes_aux_spec :
    ∀ (fuel n : Nat) (acc : List Nat), 0 < n → n < fuel →
      nat_to_bytes_aux fuel n acc =
        ((Nat.digits 10 n).reverse.map (fun d => d + 48)) ++ acc := by
  intro fuel
  induction fuel with
  | zero => intro n acc hn hfuel; omega
  | succ fuel ih =>
    intro n acc hn hfuel
    by_cases h10 : n < 10
    · have hdiv : n / 10 = 0 := Nat.div_eq_of_lt h10
      have hdig : Nat.digits 10 n = [n] := by
        rw [Nat.digits_def' (by norm_num : 1 < 10) hn, hdiv]
        simp [Nat.mod_eq_of_lt h10]
      simp [nat_to_bytes_aux, h10, hdig, Nat.mod_eq_of_lt h10]
    · push_neg at h10
      have hd : 0 < n / 10 := Nat.div_pos h10 (by norm_num)
      have hlt : n / 10 < fuel :=
        lt_of_lt_of_le (Nat.div_lt_self hn (by norm_num)) (Nat.lt_succ_iff.mp hfuel)
      have hstep := ih (n / 10) ((n % 10 + 48) :: acc) hd hlt
      rw [Nat.digits_def' (by norm_num : 1 < 10) hn]
      simp only [nat_to_bytes_aux, List.reverse_cons, List.map_append, List.map_cons,
        List.map_nil, List.append_assoc, List.cons_append, List.nil_append]
      rw [if_neg (by omega), hstep]

theorem nat_to_bytes_pos (n : Nat) (hn : 0 < n) :
    nat_to_bytes n = (Nat.digits 10 n).reverse.map (fun d => d + 48) := by
  have h := nat_to_bytes_aux_spec (n + 1) n [] hn (Nat.lt_succ_self n)
  simpa [nat_to_bytes] using h

theorem nat_to_bytes_mem (n : Nat) : ∀ b ∈ nat_to_bytes n, 48 ≤ b ∧ b ≤ 57 := by
  rcases Nat.eq_zero_or_pos n with h | h
  · subst h
    intro b hb
    simp [nat_to_bytes, nat_to_bytes_aux] at hb
    omega
  · rw [nat_to_bytes_pos n h]
    intro b hb
    simp only [List.mem_map, List.mem_reverse] at hb
    obtain ⟨d, hd, rfl⟩ := hb
    have := Nat.digits_lt_base (by norm_num) hd
    omega

theorem nat_to_bytes_ne_nil (n : Nat) : nat_to_bytes n ≠ [] := by
  rcases Nat.eq_zero_or_pos n with h | h
  · subst h; simp [nat_to_bytes, nat_to_bytes_aux]
  · rw [nat_to_bytes_pos n h]
    simp [Nat.digits_ne_nil_iff_ne_zero, Nat.pos_iff_ne_zero.mp h]

theorem digits_val_reverse (L : List Nat) :
    digits_val (L.reverse.map (fun d => d + 48)) = Nat.ofDigits 10 L := by
  induction L with
  | nil => simp [digits_val, Nat.ofDigits_nil]
  | cons d L ih =>
    have hstep : digits_val ((L.reverse.map (fun d => d + 48)) ++ [d + 48]) =
        digits_val (L.reverse.map (fun d => d + 48)) * 10 + d := by
      simp [digits_val, List.foldl_append]
    rw [List.reverse_cons, List.map_append]
    simp only [List.map_cons, List.map_nil]
    rw [hstep, ih, Nat.ofDigits_cons]
    ring

theorem digits_val_nat_to_bytes (n : Nat) : digits_val (nat_to_bytes n) = n := by
  rcases Nat.eq_zero_or_pos n with h | h
  · subst h; decide
  · rw [nat_to_bytes_pos n h, digits_val_reverse, Nat.ofDigits_digits]

theorem nat_to_bytes_len (n : Nat) (h : n ≤ USIZE_MAX) : (nat_to_bytes n).length ≤ 20 := by
  rcases Nat.eq_zero_or_pos n with h0 | h0
  · subst h0; decide
  · rw [nat_to_bytes_pos n h0]
    simp only [List.length_map, List.length_reverse]
    rw [Nat.digits_len 10 n (by norm_num) (Nat.pos_iff_ne_zero.mp h0)]
    have hlt : n < 10 ^ 20 := by
      have : (USIZE_MAX : Nat) < 10 ^ 20 := by norm_num [USIZE_MAX]
      omega
    have := Nat.log_lt_of_lt_pow (Nat.pos_iff_ne_zero.mp h0) hlt
    omega

theorem parse_bytes_nat_to_bytes (n : Nat) (hn : n ≤ USIZE_MAX) :
    parse_bytes (nat_to_bytes n) = .ok n := by
  have hmem := nat_to_bytes_mem n
  have hne := nat_to_bytes_ne_nil n
  have hutf : utf8_valid (nat_to_bytes n) = true :=
    utf8_valid_ascii _ (fun b hb => by have := hmem b hb; omega)
  have hds : (if (nat_to_bytes n).head? = some 43 then (nat_to_bytes n).tail
      else nat_to_bytes n) = nat_to_bytes n := by
    cases hcase : nat_to_bytes n with
    | nil => simp
    | cons b l =>
      have hb : 48 ≤ b ∧ b ≤ 57 := hmem b (by rw [hcase]; simp)
      have hb43 : b ≠ 43 := by omega
      simp [hb43]
  have hall : (nat_to_bytes n).all is_digit = true := by
    rw [List.all_eq_true]
    intro b hb
    have := hmem b hb
    simp [is_digit]
    omega
  have hempty : (nat_to_bytes n).isEmpty = false := by
    cases hcase : nat_to_bytes n with
    | nil => exact absurd hcase hne
    | cons b l => rfl
  simp [parse_bytes, parse_usize, hutf, hds, hall, hempty, digits_val_nat_to_bytes, hn]

theorem ratio_sep_not_mem_nat_to_bytes (n : Nat) : RATIO_SEP ∉ nat_to_bytes n := by
  intro h
  have := nat_to_bytes_mem n RATIO_SEP h
  simp [RATIO_SEP] at this

theorem ratio_parse_display (r : Ratio) (h1 : r.num ≤ USIZE_MAX) (h2 : r.den ≤ USIZE_MAX) :
    Ratio.parse r.display = .ok r := by
  rw [Ratio.display, Ratio.parse, splitn2_append RATIO_SEP _ _ (ratio_sep_not_mem_nat_to_bytes r.num)]
  simp only [parse_bytes_nat_to_bytes r.num h1, parse_bytes_nat_to_bytes r.den h2]
  rfl

theorem cs_of_value_tag (c : Colorspace) : cs_of_value c.tag_value = some c := by
  cases c <;> rfl

theorem tag_value_mem (c : Colorspace) : ∀ b ∈ c.tag_value, 48 ≤ b ∧ b ≤ 118 := by
  cases c <;> decide

theorem isPrefixOf_append_self (l₁ l₂ : List Nat) : l₁.isPrefixOf (l₁ ++ l₂) = true := by
  induction l₁ with
  | nil => simp
  | cons b l ih => simp [List.isPrefixOf_cons₂, ih]

/-! ### Lemmas about the prologue token loop -/

theorem parse_param_fields (acc acc' : HeaderAcc) (t : List Nat)
    (h : parse_param acc t = .ok acc') :
    (t.head? ≠ some 87 → acc'.width = acc.width) ∧
    (t.head? ≠ some 72 → acc'.height = acc.height) ∧
    (t.head? ≠ some 70 → acc'.framerate = acc.framerate) ∧
    (t.head? ≠ some 65 → acc'.pixel_aspect = acc.pixel_aspect) ∧
    (t.head? ≠ some 67 → acc'.colorspace = acc.colorspace) := by
  cases t with
  | nil =>
    simp only [parse_param, Except.ok.injEq] at h
    subst h
    simp
  | cons name value =>
    simp only [parse_param] at h
    by_cases h87 : name = 87
    · subst h87
      rw [if_pos rfl] at h
      cases hpb : parse_bytes value with
      | error e => rw [hpb] at h; exact absurd h (by simp)
      | ok w =>
        rw [hpb] at h
        simp only [Except.ok.injEq] at h
        subst h
        refine ⟨fun hc => absurd rfl hc, fun _ => rfl, fun _ => rfl,
          fun _ => rfl, fun _ => rfl⟩
    · rw [if_neg h87] at h
      by_cases h72 : name = 72
      · subst h72
        rw [if_pos rfl] at h
        cases hpb : parse_bytes value with
        | error e => rw [hpb] at h; exact absurd h (by simp)
        | ok hv =>
          rw [hpb] at h
          simp only [Except.ok.injEq] at h
          subst h
          refine ⟨fun _ => rfl, fun hc => absurd rfl hc, fun _ => rfl,
            fun _ => rfl, fun _ => rfl⟩
      · rw [if_neg h72] at h
        by_cases h70 : name = 70
        · subst h70
          rw [if_pos rfl] at h
          cases hpb : Ratio.parse value with
          | error e => rw [hpb] at h; exact absurd h (by simp)
          | ok f =>
            rw [hpb] at h
            simp only [Except.ok.injEq] at h
            subst h
            refine ⟨fun _ => rfl, fun _ => rfl, fun hc => absurd rfl hc,
              fun _ => rfl, fun _ => rfl⟩
        · rw [if_neg h70] at h
          by_cases h65 : name = 65
          · subst h65
            rw [if_pos rfl] at h
            cases hpb : Ratio.parse value with
            | error e => rw [hpb] at h; exact absurd h (by simp)
            | ok a =>
              rw [hpb] at h
              simp only [Except.ok.injEq] at h
              subst h
              refine ⟨fun _ => rfl, fun _ => rfl, fun _ => rfl,
                fun hc => absurd rfl hc, fun _ => rfl⟩
          · rw [if_neg h65] at h
            by_cases h67 : name = 67
            · subst h67
              rw [if_pos rfl] at h
              cases hcs : cs_of_value value with
              | none => rw [hcs] at h; exact absurd h (by simp)
              | some c =>
                rw [hcs] at h
                simp only [Except.ok.injEq] at h
                subst h
                refine ⟨fun _ => rfl, fun _ => rfl, fun _ => rfl, fun _ => rfl,
                  fun hc => absurd rfl hc⟩
            · rw [if_neg h67] at h
              simp only [Except.ok.injEq] at h
              subst h
              exact ⟨fun _ => rfl, fun _ => rfl, fun _ => rfl, fun _ => rfl, fun _ => rfl⟩

theorem parse_params_append (ts1 : List (List Nat)) :
    ∀ (ts2 : List (List Nat)) (acc : HeaderAcc),
      parse_params (ts1 ++ ts2) acc =
        match parse_params ts1 acc with
        | .ok a => parse_params ts2 a
        | .error e => .error e := by
  induction ts1 with
  | nil => intro ts2 acc; simp [parse_params]
  | cons t ts ih =>
    intro ts2 acc
    simp only [List.cons_append, parse_params]
    cases parse_param acc t with
    | error e => simp
    | ok a => simpa using ih ts2 a

theorem parse_params_fields (ts : List (List Nat)) :
    ∀ (acc acc' : HeaderAcc), parse_params ts acc = .ok acc' →
      ((∀ t ∈ ts, t.head? ≠ some 87) → acc'.width = acc.width) ∧
      ((∀ t ∈ ts, t.head? ≠ some 72) → acc'.height = acc.height) ∧
      ((∀ t ∈ ts, t.head? ≠ some 70) → acc'.framerate = acc.framerate) ∧
      ((∀ t ∈ ts, t.head? ≠ some 65) → acc'.pixel_aspect = acc.pixel_aspect) ∧
      ((∀ t ∈ ts, t.head? ≠ some 67) → acc'.colorspace = acc.colorspace) := by
  induction ts with
  | nil =>
    intro acc acc' h
    simp only [parse_params, Except.ok.injEq] at h
    subst h
    simp
  | cons t ts ih =>
    intro acc acc' h
    simp only [parse_params] at h
    cases hp : parse_param acc t with
    | error e => rw [hp] at h; exact absurd h (by simp)
    | ok acc1 =>
      rw [hp] at h
      obtain ⟨w1, h1, f1, a1, c1⟩ := parse_param_fields acc acc1 t hp
      obtain ⟨w2, h2, f2, a2, c2⟩ := ih acc1 acc' h
      refine ⟨?_, ?_, ?_, ?_, ?_⟩ <;> intro hall
      · rw [w2 (fun u hu => hall u (by simp [hu])), w1 (hall t (by simp))]
      · rw [h2 (fun u hu => hall u (by simp [hu])), h1 (hall t (by simp))]
      · rw [f2 (fun u hu => hall u (by simp [hu])), f1 (hall t (by simp))]
      · rw [a2 (fun u hu => hall u (by simp [hu])), a1 (hall t (by simp))]
      · rw [c2 (fun u hu => hall u (by simp [hu])), c1 (hall t (by simp))]

/-! ### Inversion of decoder construction -/

theorem new_with_limits_inv (stream : List Nat) (limits : Limits) (d : Decoder)
    (h : Decoder.new_with_limits stream limits = .ok d) :
    ∃ collected rest acc,
      read_until TERMINATOR MAX_PARAMS_SIZE stream = .ok (collected, rest) ∧
      parse_params (split_sep FIELD_SEP (collected.drop FILE_MAGICK.length)) init_acc
        = .ok acc ∧
      acc.width ≠ 0 ∧ acc.height ≠ 0 ∧
      plane_sum_u acc.width acc.height (acc.colorspace.getD .C420) ≤ limits.bytes ∧
      d.reader = rest ∧
      d.raw_params = collected.drop FILE_MAGICK.length ∧
      d.width = acc.width ∧ d.height = acc.height ∧
      d.framerate = acc.framerate ∧ d.pixel_aspect = acc.pixel_aspect ∧
      d.colorspace = acc.colorspace.getD .C420 ∧
      d.frame_buf = List.replicate
        (plane_sum_u acc.width acc.height (acc.colorspace.getD .C420)) 0 := by
  unfold Decoder.new_with_limits at h
  split at h
  · exact absurd h (by simp)
  · rename_i collected rest heq
    split at h
    · exact absurd h (by simp)
    · dsimp only at h
      split at h
      · exact absurd h (by simp)
      · rename_i hmagic acc hpp
        split at h
        · exact absurd h (by simp)
        · split at h
          · exact absurd h (by simp)
          · rename_i hwh hoom
            simp only [Except.ok.injEq] at h
            subst h
            push_neg at hwh
            refine ⟨collected, rest, acc, heq, hpp, hwh.1, hwh.2, ?_, rfl, rfl,
              rfl, rfl, rfl, rfl, rfl, ?_⟩
            · simp only [plane_sum_u]
              omega
            · simp only [plane_sum_u]

/-! ### Round-trip machinery: encoding side -/

theorem tag_value_length (c : Colorspace) : c.tag_value.length ≤ 8 := by
  cases c <;> decide

theorem write_frames_ok (frames : List Frame) :
    ∀ (e : Encoder),
      (∀ f ∈ frames, f.y.length = e.y_len ∧ f.u.length = e.u_len ∧
        f.v.length = e.v_len) →
      ∃ e', e.write_frames frames = .ok e' ∧
        e'.writer = e.writer ++ (frames.map frame_payload).flatten ∧
        e'.y_len = e.y_len ∧ e'.u_len = e.u_len ∧ e'.v_len = e.v_len := by
  induction frames with
  | nil =>
    intro e _
    exact ⟨e, rfl, by simp, rfl, rfl, rfl⟩
  | cons f fs ih =>
    intro e hall
    obtain ⟨hy, hu, hv⟩ := hall f (by simp)
    obtain ⟨e', he', hw, hyl, hul, hvl⟩ :=
      ih ({ e with writer := e.writer ++ FRAME_MAGICK
        ++ (match f.raw_params with
            | some params => FIELD_SEP :: params
            | none => [])
        ++ [TERMINATOR] ++ f.y ++ f.u ++ f.v })
        (fun f' hf' => hall f' (by simp [hf']))
    refine ⟨e', ?_, ?_, hyl, hul, hvl⟩
    · simp only [Encoder.write_frames]
      rw [Encoder.write_frame, if_neg (by push_neg; exact ⟨hy, hu, hv⟩)]
      exact he'
    · rw [hw]
      simp [frame_payload, List.append_assoc]

/-! ### Round-trip machinery: decoding the emitted header -/

theorem header_writer_eq (w h : Nat) (fr : Ratio) (c : Colorspace) :
    (((EncoderBuilder.new w h fr).with_colorspace c).write_header).writer =
      (FILE_MAGICK ++ header_params w h fr c) ++ [TERMINATOR] := by
  rw [EncoderBuilder.write_header]
  simp [EncoderBuilder.new, EncoderBuilder.with_colorspace, Colorspace.debug_bytes,
    header_params, Ratio.new, FIELD_SEP, List.append_assoc]

theorem header_params_range (w h : Nat) (fr : Ratio) (c : Colorspace) :
    ∀ b ∈ header_params w h fr c, 32 ≤ b ∧ b ≤ 118 := by
  intro b hb
  rw [header_params] at hb
  rcases List.mem_append.mp hb with hb | h1
  swap
  · rcases List.mem_cons.mp h1 with h1 | h1
    · omega
    · have := tag_value_mem c b h1; omega
  rcases List.mem_append.mp hb with hb | h1
  swap
  · simp at h1; omega
  rcases List.mem_append.mp hb with hb | h1
  swap
  · rw [Ratio.display] at h1
    rcases List.mem_append.mp h1 with h2 | h2
    · have := nat_to_bytes_mem fr.num b h2; omega
    · rcases List.mem_cons.mp h2 with h3 | h3
      · simp only [RATIO_SEP] at h3; omega
      · have := nat_to_bytes_mem fr.den b h3; omega
  rcases List.mem_append.mp hb with hb | h1
  swap
  · simp at h1; rcases h1 with h1 | h1 <;> omega
  rcases List.mem_append.mp hb with hb | h1
  swap
  · have := nat_to_bytes_mem h b h1; omega
  rcases List.mem_append.mp hb with hb | h1
  swap
  · simp at h1; rcases h1 with h1 | h1 <;> omega
  rcases List.mem_append.mp hb with hb | h1
  swap
  · have := nat_to_bytes_mem w b h1; omega
  · simp at hb; omega

theorem header_params_no_terminator (w h : Nat) (fr : Ratio) (c : Colorspace) :
    ∀ b ∈ FILE_MAGICK ++ header_params w h fr c, b ≠ TERMINATOR := by
  intro b hb
  simp only [TERMINATOR]
  rw [List.mem_append] at hb
  rcases hb with hb | hb
  · simp [FILE_MAGICK] at hb
    rcases hb with hb | hb | hb | hb | hb | hb | hb | hb | hb | hb <;> omega
  · have := header_params_range w h fr c b hb
    omega

theorem header_params_len (w h : Nat) (fr : Ratio) (c : Colorspace)
    (hw : w ≤ USIZE_MAX) (hh : h ≤ USIZE_MAX)
    (hfn : fr.num ≤ USIZE_MAX) (hfd : fr.den ≤ USIZE_MAX) :
    (FILE_MAGICK ++ header_params w h fr c).length < MAX_PARAMS_SIZE := by
  have t1 := nat_to_bytes_len w hw
  have t2 := nat_to_bytes_len h hh
  have t3 := nat_to_bytes_len fr.num hfn
  have t4 := nat_to_bytes_len fr.den hfd
  have t5 := tag_value_length c
  simp [header_params, Ratio.display, FILE_MAGICK, MAX_PARAMS_SIZE]
  omega

theorem new_with_limits_eval (stream collected rest : List Nat) (limits : Limits)
    (acc : HeaderAcc)
    (h1 : read_until TERMINATOR MAX_PARAMS_SIZE stream = .ok (collected, rest))
    (h2 : ¬ (collected.length < FILE_MAGICK.length ∨ ¬ FILE_MAGICK.isPrefixOf collected))
    (h3 : parse_params (split_sep FIELD_SEP (collected.drop FILE_MAGICK.length)) init_acc
      = .ok acc)
    (h4 : ¬ (acc.width = 0 ∨ acc.height = 0))
    (h5 : ¬ (usize_add
      (usize_add (get_plane_sizes_u acc.width acc.height (acc.colorspace.getD .C420)).1
        (get_plane_sizes_u acc.width acc.height (acc.colorspace.getD .C420)).2.1)
      (get_plane_sizes_u acc.width acc.height (acc.colorspace.getD .C420)).2.2
      > limits.bytes)) :
    Decoder.new_with_limits stream limits = .ok {
      reader := rest
      frame_buf := List.replicate
        (usize_add
          (usize_add (get_plane_sizes_u acc.width acc.height (acc.colorspace.getD .C420)).1
            (get_plane_sizes_u acc.width acc.height (acc.colorspace.getD .C420)).2.1)
          (get_plane_sizes_u acc.width acc.height (acc.colorspace.getD .C420)).2.2) 0
      raw_params := collected.drop FILE_MAGICK.length
      width := acc.width
      height := acc.height
      framerate := acc.framerate
      pixel_aspect := acc.pixel_aspect
      colorspace := acc.colorspace.getD .C420
      y_len := (get_plane_sizes_u acc.width acc.height (acc.colorspace.getD .C420)).1
      u_len := (get_plane_sizes_u acc.width acc.height (acc.colorspace.getD .C420)).2.1 } := by
  unfold Decoder.new_with_limits
  split
  · rename_i e heq
    rw [h1] at heq
    exact absurd heq (by simp)
  · rename_i collected' rest' heq
    rw [h1] at heq
    simp only [Except.ok.injEq, Prod.mk.injEq] at heq
    obtain ⟨rfl, rfl⟩ := heq
    rw [if_neg h2]
    dsimp only
    split
    · rename_i e heq2
      rw [h3] at heq2
      exact absurd heq2 (by simp)
    · rename_i acc' heq2
      rw [h3] at heq2
      simp only [Except.ok.injEq] at heq2
      subst heq2
      rw [if_neg h4, if_neg h5]

theorem usize_y_eq (w h bps : Nat) (hbps : 0 < bps) (hy : w * h * bps < 2 ^ 63) :
    usize_mul (usize_mul w h) bps = w * h * bps := by
  have hpow : (2 : Nat) ^ 63 < USIZE_MOD := by norm_num [USIZE_MOD]
  have hM : w * h * bps < USIZE_MOD := lt_trans hy hpow
  have hwh : w * h ≤ w * h * bps := Nat.le_mul_of_pos_right _ hbps
  have hwhM : w * h < USIZE_MOD := lt_of_le_of_lt hwh hM
  simp only [usize_mul]
  rw [Nat.mod_eq_of_lt hwhM, Nat.mod_eq_of_lt hM]

theorem usize_c420_eq (w h bps : Nat) (hw : w ≠ 0) (hh : h ≠ 0) (hbps : 0 < bps)
    (hy : w * h * bps < 2 ^ 63) :
    usize_mul (usize_mul (usize_add w 1 / 2) (usize_add h 1 / 2)) bps
      = ((w + 1) / 2) * ((h + 1) / 2) * bps := by
  have hpow : (2 : Nat) ^ 63 < USIZE_MOD := by norm_num [USIZE_MOD]
  have hw1 : w * 1 ≤ w * h := Nat.mul_le_mul_left w (Nat.one_le_iff_ne_zero.mpr hh)
  have hh1 : 1 * h ≤ w * h := Nat.mul_le_mul_right h (Nat.one_le_iff_ne_zero.mpr hw)
  have hwh : w * h ≤ w * h * bps := Nat.le_mul_of_pos_right _ hbps
  have hwa : usize_add w 1 = w + 1 := by
    rw [usize_add, Nat.mod_eq_of_lt (by omega)]
  have hha : usize_add h 1 = h + 1 := by
    rw [usize_add, Nat.mod_eq_of_lt (by omega)]
  rw [hwa, hha]
  have hc1 : (w + 1) / 2 ≤ w := by omega
  have hc2 : (h + 1) / 2 ≤ h := by omega
  have hprod : (w + 1) / 2 * ((h + 1) / 2) ≤ w * h := Nat.mul_le_mul hc1 hc2
  have hprodb : (w + 1) / 2 * ((h + 1) / 2) * bps ≤ w * h * bps :=
    Nat.mul_le_mul_right bps hprod
  have hA : (w + 1) / 2 * ((h + 1) / 2) < USIZE_MOD :=
    lt_of_le_of_lt (hprod.trans hwh) (hy.trans hpow)
  have hAb : (w + 1) / 2 * ((h + 1) / 2) * bps < USIZE_MOD :=
    lt_of_le_of_lt hprodb (hy.trans hpow)
  simp only [usize_mul]
  rw [Nat.mod_eq_of_lt hA, Nat.mod_eq_of_lt hAb]

theorem usize_c422_eq (w h bps : Nat) (hw : w ≠ 0) (hh : h ≠ 0) (hbps : 0 < bps)
    (hy : w * h * bps < 2 ^ 63) :
    usize_mul (usize_mul (usize_add w 1 / 2) h) bps = ((w + 1) / 2) * h * bps := by
  have hpow : (2 : Nat) ^ 63 < USIZE_MOD := by norm_num [USIZE_MOD]
  have hw1 : w * 1 ≤ w * h := Nat.mul_le_mul_left w (Nat.one_le_iff_ne_zero.mpr hh)
  have hwh : w * h ≤ w * h * bps := Nat.le_mul_of_pos_right _ hbps
  have hwa : usize_add w 1 = w + 1 := by
    rw [usize_add, Nat.mod_eq_of_lt (by omega)]
  rw [hwa]
  have hc1 : (w + 1) / 2 ≤ w := by omega
  have hprod : (w + 1) / 2 * h ≤ w * h := Nat.mul_le_mul_right h hc1
  have hprodb : (w + 1) / 2 * h * bps ≤ w * h * bps := Nat.mul_le_mul_right bps hprod
  have hA : (w + 1) / 2 * h < USIZE_MOD :=
    lt_of_le_of_lt (hprod.trans hwh) (hy.trans hpow)
  have hAb : (w + 1) / 2 * h * bps < USIZE_MOD :=
    lt_of_le_of_lt hprodb (hy.trans hpow)
  simp only [usize_mul]
  rw [Nat.mod_eq_of_lt hA, Nat.mod_eq_of_lt hAb]

theorem plane_sizes_u_eq (w h : Nat) (c : Colorspace)
    (hw : w ≠ 0) (hh : h ≠ 0) (hsum : plane_sum w h c < 2 ^ 63) :
    get_plane_sizes_u w h c = get_plane_sizes w h c := by
  have hgps1 : (get_plane_sizes w h c).1 = w * h * c.get_bytes_per_sample := by
    cases c <;> rfl
  have hy : w * h * c.get_bytes_per_sample < 2 ^ 63 := by
    rw [← hgps1]
    exact lt_of_le_of_lt (by simp only [plane_sum]; omega) hsum
  cases c <;>
    first
    | exact congrArg (fun y => (y, 0, 0)) (usize_y_eq w h _ (by decide) hy)
    | exact congrArg₂ (fun y ch => (y, ch, ch)) (usize_y_eq w h _ (by decide) hy)
        (usize_c420_eq w h _ hw hh (by decide) hy)
    | exact congrArg₂ (fun y ch => (y, ch, ch)) (usize_y_eq w h _ (by decide) hy)
        (usize_c422_eq w h _ hw hh (by decide) hy)
    | exact congrArg (fun y => (y, y, y)) (usize_y_eq w h _ (by decide) hy)

theorem plane_sum_u_eq (w h : Nat) (c : Colorspace)
    (hw : w ≠ 0) (hh : h ≠ 0) (hsum : plane_sum w h c < 2 ^ 63) :
    plane_sum_u w h c = plane_sum w h c := by
  have hg := plane_sizes_u_eq w h c hw hh hsum
  simp only [plane_sum_u, hg, usize_add, USIZE_MOD]
  simp only [plane_sum] at hsum
  have e64 : (2 : Nat) ^ 64 = 18446744073709551616 := by norm_num
  have e63 : (2 : Nat) ^ 63 = 9223372036854775808 := by norm_num
  rw [e64]
  rw [e63] at hsum
  simp only [plane_sum]
  omega

theorem decode_header (w h : Nat) (c : Colorspace) (fr : Ratio) (limits : Limits)
    (extra : List Nat)
    (hw : w ≠ 0) (hh : h ≠ 0) (hw2 : w ≤ USIZE_MAX) (hh2 : h ≤ USIZE_MAX)
    (hfn : fr.num ≤ USIZE_MAX) (hfd : fr.den ≤ USIZE_MAX)
    (hlim : plane_sum w h c ≤ limits.bytes)
    (hsmall : plane_sum w h c < 2 ^ 63) :
    Decoder.new_with_limits
        ((((EncoderBuilder.new w h fr).with_colorspace c).write_header).writer ++ extra)
        limits
      = .ok {
          reader := extra
          frame_buf := List.replicate (plane_sum w h c) 0
          raw_params := header_params w h fr c
          width := w
          height := h
          framerate := fr
          pixel_aspect := Ratio.new 1 1
          colorspace := c
          y_len := (get_plane_sizes w h c).1
          u_len := (get_plane_sizes w h c).2.1 } := by
  have hnw : FIELD_SEP ∉ 87 :: nat_to_bytes w := by
    simp only [FIELD_SEP, List.mem_cons]
    push_neg
    exact ⟨by omega, fun hmem => by have := nat_to_bytes_mem w 32 hmem; omega⟩
  have hnh : FIELD_SEP ∉ 72 :: nat_to_bytes h := by
    simp only [FIELD_SEP, List.mem_cons]
    push_neg
    exact ⟨by omega, fun hmem => by have := nat_to_bytes_mem h 32 hmem; omega⟩
  have hnf : FIELD_SEP ∉ 70 :: fr.display := by
    simp only [FIELD_SEP, List.mem_cons]
    push_neg
    refine ⟨by omega, fun hmem => ?_⟩
    rw [Ratio.display] at hmem
    rcases List.mem_append.mp hmem with hq | hq
    · have := nat_to_bytes_mem fr.num 32 hq; omega
    · rcases List.mem_cons.mp hq with hq | hq
      · simp only [RATIO_SEP] at hq; omega
      · have := nat_to_bytes_mem fr.den 32 hq; omega
  have hnc : FIELD_SEP ∉ 67 :: c.tag_value := by
    simp only [FIELD_SEP, List.mem_cons]
    push_neg
    exact ⟨by omega, fun hmem => by have := tag_value_mem c 32 hmem; omega⟩
  have hshape : header_params w h fr c =
      (87 :: nat_to_bytes w) ++ FIELD_SEP :: ((72 :: nat_to_bytes h)
        ++ FIELD_SEP :: ((70 :: fr.display) ++ FIELD_SEP :: (67 :: c.tag_value))) := by
    simp [header_params, FIELD_SEP, List.append_assoc]
  have hsplit : split_sep FIELD_SEP (header_params w h fr c) =
      [87 :: nat_to_bytes w, 72 :: nat_to_bytes h, 70 :: fr.display, 67 :: c.tag_value] := by
    rw [hshape, split_sep_append FIELD_SEP _ _ hnw, split_sep_append FIELD_SEP _ _ hnh,
      split_sep_append FIELD_SEP _ _ hnf, split_sep_of_not_mem FIELD_SEP _ hnc]
  have s1 : parse_param init_acc (87 :: nat_to_bytes w)
      = .ok ⟨w, 0, Ratio.new 25 1, Ratio.new 1 1, none⟩ := by
    have hred : parse_param init_acc (87 :: nat_to_bytes w)
        = (match parse_bytes (nat_to_bytes w) with
           | .ok n => (.ok { init_acc with width := n } : Except Error HeaderAcc)
           | .error e => .error e) := rfl
    rw [hred, parse_bytes_nat_to_bytes w hw2]
    rfl
  have s2 : parse_param ⟨w, 0, Ratio.new 25 1, Ratio.new 1 1, none⟩ (72 :: nat_to_bytes h)
      = .ok ⟨w, h, Ratio.new 25 1, Ratio.new 1 1, none⟩ := by
    have hred : parse_param ⟨w, 0, Ratio.new 25 1, Ratio.new 1 1, none⟩
        (72 :: nat_to_bytes h)
        = (match parse_bytes (nat_to_bytes h) with
           | .ok n => (.ok ⟨w, n, Ratio.new 25 1, Ratio.new 1 1, none⟩ :
               Except Error HeaderAcc)
           | .error e => .error e) := rfl
    rw [hred, parse_bytes_nat_to_bytes h hh2]
  have s3 : parse_param ⟨w, h, Ratio.new 25 1, Ratio.new 1 1, none⟩ (70 :: fr.display)
      = .ok ⟨w, h, fr, Ratio.new 1 1, none⟩ := by
    have hred : parse_param ⟨w, h, Ratio.new 25 1, Ratio.new 1 1, none⟩ (70 :: fr.display)
        = (match Ratio.parse fr.display with
           | .ok f => (.ok ⟨w, h, f, Ratio.new 1 1, none⟩ : Except Error HeaderAcc)
           | .error e => .error e) := rfl
    rw [hred, ratio_parse_display fr hfn hfd]
  have s4 : parse_param ⟨w, h, fr, Ratio.new 1 1, none⟩ (67 :: c.tag_value)
      = .ok ⟨w, h, fr, Ratio.new 1 1, some c⟩ := by
    have hred : parse_param ⟨w, h, fr, Ratio.new 1 1, none⟩ (67 :: c.tag_value)
        = (match cs_of_value c.tag_value with
           | some cc => (.ok ⟨w, h, fr, Ratio.new 1 1, some cc⟩ : Except Error HeaderAcc)
           | none => .error .UnknownColorspace) := rfl
    rw [hred, cs_of_value_tag c]
  have hpp : parse_params
      [87 :: nat_to_bytes w, 72 :: nat_to_bytes h, 70 :: fr.display, 67 :: c.tag_value]
      init_acc = .ok ⟨w, h, fr, Ratio.new 1 1, some c⟩ := by
    simp only [parse_params, s1, s2, s3, s4]
  have h1 : read_until TERMINATOR MAX_PARAMS_SIZE
      ((FILE_MAGICK ++ header_params w h fr c) ++ TERMINATOR :: extra)
      = .ok (FILE_MAGICK ++ header_params w h fr c, extra) :=
    read_until_terminated TERMINATOR (FILE_MAGICK ++ header_params w h fr c)
      MAX_PARAMS_SIZE extra (header_params_no_terminator w h fr c)
      (header_params_len w h fr c hw2 hh2 hfn hfd)
  have h2 : ¬ ((FILE_MAGICK ++ header_params w h fr c).length < FILE_MAGICK.length
      ∨ ¬ FILE_MAGICK.isPrefixOf (FILE_MAGICK ++ header_params w h fr c)) := by
    push_neg
    constructor
    · simp [List.length_append]
    · exact isPrefixOf_append_self FILE_MAGICK (header_params w h fr c)
  have h3 : parse_params (split_sep FIELD_SEP
      ((FILE_MAGICK ++ header_params w h fr c).drop FILE_MAGICK.length)) init_acc
      = .ok ⟨w, h, fr, Ratio.new 1 1, some c⟩ := by
    rw [List.drop_left, hsplit]
    exact hpp
  have h4 : ¬ ((⟨w, h, fr, Ratio.new 1 1, some c⟩ : HeaderAcc).width = 0
      ∨ (⟨w, h, fr, Ratio.new 1 1, some c⟩ : HeaderAcc).height = 0) := by
    push_neg
    exact ⟨hw, hh⟩
  have hgps := plane_sizes_u_eq w h c hw hh hsmall
  have hsum_u_eq : usize_add
      (usize_add (get_plane_sizes_u w h c).1 (get_plane_sizes_u w h c).2.1)
      (get_plane_sizes_u w h c).2.2 = plane_sum w h c :=
    plane_sum_u_eq w h c hw hh hsmall
  have h5 : ¬ (usize_add
      (usize_add (get_plane_sizes_u w h c).1 (get_plane_sizes_u w h c).2.1)
      (get_plane_sizes_u w h c).2.2
      > limits.bytes) := by
    rw [hsum_u_eq]
    omega
  have hstream : (((EncoderBuilder.new w h fr).with_colorspace c).write_header).writer
      ++ extra
      = (FILE_MAGICK ++ header_params w h fr c) ++ TERMINATOR :: extra := by
    rw [header_writer_eq]
    simp [List.append_assoc]
  rw [hstream]
  have heval := new_with_limits_eval
    ((FILE_MAGICK ++ header_params w h fr c) ++ TERMINATOR :: extra)
    (FILE_MAGICK ++ header_params w h fr c) extra limits
    ⟨w, h, fr, Ratio.new 1 1, some c⟩ h1 h2 h3 h4 h5
  rw [List.drop_left] at heval
  dsimp only [Option.getD] at heval
  rw [hsum_u_eq, hgps] at heval
  exact heval

/-! ### Round-trip machinery: decoding the emitted frames -/

theorem read_frame_payload (d : Decoder) (y u v more : List Nat)
    (hy : y.length = d.y_len) (hu : u.length = d.u_len)
    (hbuf : d.frame_buf.length = d.y_len + d.u_len + v.length)
    (hreader : d.reader = FRAME_MAGICK ++ TERMINATOR :: (y ++ u ++ v ++ more)) :
    d.read_frame = .ok (⟨y, u, v, none⟩,
      { d with reader := more, frame_buf := y ++ u ++ v }) := by
  have hlen3 : (y ++ u ++ v).length = d.frame_buf.length := by
    simp only [List.length_append, hy, hu]
    omega
  unfold Decoder.read_frame
  rw [hreader]
  have hru : read_until TERMINATOR MAX_PARAMS_SIZE
      (FRAME_MAGICK ++ TERMINATOR :: (y ++ u ++ v ++ more))
      = .ok (FRAME_MAGICK, y ++ u ++ v ++ more) :=
    read_until_terminated TERMINATOR FRAME_MAGICK MAX_PARAMS_SIZE _
      (by decide) (by decide)
  split
  · rename_i e heq
    rw [hru] at heq
    exact absurd heq (by simp)
  · rename_i collected rest heq
    rw [hru] at heq
    simp only [Except.ok.injEq, Prod.mk.injEq] at heq
    obtain ⟨rfl, rfl⟩ := heq
    rw [if_neg (by decide)]
    split
    · rename_i e heq2
      rw [if_neg (by decide)] at heq2
      exact absurd heq2 (by simp)
    · rename_i raw heq2
      rw [if_neg (by decide)] at heq2
      simp only [Except.ok.injEq] at heq2
      subst heq2
      have hle : d.frame_buf.length ≤ (y ++ u ++ v ++ more).length := by
        simp only [List.length_append]
        simp only [List.length_append] at hlen3
        omega
      rw [if_pos hle]
      have htake : (y ++ u ++ v ++ more).take d.frame_buf.length = y ++ u ++ v :=
        List.take_left' hlen3
      have hdropm : (y ++ u ++ v ++ more).drop d.frame_buf.length = more :=
        List.drop_left' hlen3
      have ht1 : (y ++ u ++ v).take d.y_len = y := by
        rw [List.append_assoc]
        exact List.take_left' hy
      have hd1 : ((y ++ u ++ v).drop d.y_len).take d.u_len = u := by
        rw [List.append_assoc, List.drop_left' hy]
        exact List.take_left' hu
      have hd2 : (y ++ u ++ v).drop (d.y_len + d.u_len) = v := by
        apply List.drop_left'
        simp only [List.length_append, hy, hu]
      dsimp only
      rw [htake, hdropm, ht1, hd1, hd2]

theorem read_frames_payloads (frames : List Frame) :
    ∀ (d : Decoder) (more : List Nat),
      (∀ f ∈ frames, f.y.length = d.y_len ∧ f.u.length = d.u_len ∧
        d.frame_buf.length = d.y_len + d.u_len + f.v.length ∧ f.raw_params = none) →
      d.reader = (frames.map frame_payload).flatten ++ more →
      ∃ d', d.read_frames frames.length = .ok (frames, d') ∧ d'.reader = more := by
  induction frames with
  | nil =>
    intro d more _ hreader
    refine ⟨d, rfl, ?_⟩
    rw [hreader]
    simp
  | cons f fs ih =>
    intro d more hall hreader
    obtain ⟨hy, hu, hbuf, hraw⟩ := hall f (by simp)
    have hform : d.reader = FRAME_MAGICK
        ++ TERMINATOR :: (f.y ++ f.u ++ f.v ++ ((fs.map frame_payload).flatten ++ more)) := by
      rw [hreader]
      simp [frame_payload, hraw, List.append_assoc]
    have hrf := read_frame_payload d f.y f.u f.v
      ((fs.map frame_payload).flatten ++ more) hy hu hbuf hform
    have hfeq : (⟨f.y, f.u, f.v, none⟩ : Frame) = f := by
      cases f with
      | mk fy fu fv rp =>
        have hrp : rp = none := hraw
        rw [hrp]
    rw [hfeq] at hrf
    have hall2 : ∀ f' ∈ fs, f'.y.length = d.y_len ∧ f'.u.length = d.u_len ∧
        (f.y ++ f.u ++ f.v).length = d.y_len + d.u_len + f'.v.length ∧
        f'.raw_params = none := by
      intro f' hf'
      obtain ⟨a, b, cc, dd⟩ := hall f' (by simp [hf'])
      refine ⟨a, b, ?_, dd⟩
      simp only [List.length_append, hy, hu]
      omega
    obtain ⟨d', hd', hd'reader⟩ :=
      ih
        { d with
          reader := (fs.map frame_payload).flatten ++ more
          frame_buf := f.y ++ f.u ++ f.v }
        more hall2 rfl
    refine ⟨d', ?_, hd'reader⟩
    have hfin : (match Decoder.read_frames
        { d with
          reader := (fs.map frame_payload).flatten ++ more
          frame_buf := f.y ++ f.u ++ f.v } fs.length with
        | .error e => (.error e : Except Error (List Frame × Decoder))
        | .ok (fs1, dd) => .ok (f :: fs1, dd)) = .ok (f :: fs, d') := by
      rw [hd']
    simp only [List.length_cons, Decoder.read_frames]
    rw [hrf]
    exact hfin

/-! ### Claim C1: the encode/decode round-trip -/

/-- C1 counterexample: the claim quantifies over every width/height pair,
but for width 0 (and 0 frames) the decoder rejects the emitted header with
`ParseError::General` (the zero-dimension check), so no decoded width
exists to compare with the encoder's. -/
theorem c1_roundtrip_counterexample :
    ((EncoderBuilder.new 0 2 (Ratio.new 25 1)).write_header).write_frames [] =
      .ok ((EncoderBuilder.new 0 2 (Ratio.new 25 1)).write_header) ∧
    Decoder.new ((EncoderBuilder.new 0 2 (Ratio.new 25 1)).write_header).writer =
      .error (.ParseError .General) := by
  exact ⟨rfl, by decide⟩

/-- C1 (amended): for every supported colorspace and every `usize`
width/height pair that is nonzero (the decoder rejects zero dimensions)
and whose total frame size fits the decoder's default 1 GiB limit, and
every `usize` framerate: writing the header and then N parameterless
frames with the exact plane sizes, then decoding the resulting byte
stream, yields the same N frames — plane byte sequences identical to the
originals — and the decoded width, height, colorspace and framerate equal
those given to the encoder, with the whole stream consumed. -/
theorem c1_roundtrip_amended (w h : Nat) (c : Colorspace) (fr : Ratio)
    (frames : List Frame)
    (hw : w ≠ 0) (hh : h ≠ 0) (hw2 : w ≤ USIZE_MAX) (hh2 : h ≤ USIZE_MAX)
    (hfn : fr.num ≤ USIZE_MAX) (hfd : fr.den ≤ USIZE_MAX)
    (hlim : plane_sum w h c ≤ Limits.default.bytes)
    (hframes : ∀ f ∈ frames, f.y.length = (get_plane_sizes w h c).1 ∧
      f.u.length = (get_plane_sizes w h c).2.1 ∧
      f.v.length = (get_plane_sizes w h c).2.2 ∧ f.raw_params = none) :
    ∃ enc : Encoder,
      (((EncoderBuilder.new w h fr).with_colorspace c).write_header).write_frames frames
        = .ok enc ∧
      ∃ dec : Decoder, Decoder.new enc.writer = .ok dec ∧
        dec.width = w ∧ dec.height = h ∧ dec.colorspace = c ∧ dec.framerate = fr ∧
        ∃ dec' : Decoder, dec.read_frames frames.length = .ok (frames, dec') ∧
          dec'.reader = [] := by
  obtain ⟨enc, henc, hwriter, hyl, hul, hvl⟩ :=
    write_frames_ok frames (((EncoderBuilder.new w h fr).with_colorspace c).write_header)
      (fun f hf => ⟨(hframes f hf).1, (hframes f hf).2.1, (hframes f hf).2.2.1⟩)
  refine ⟨enc, henc, ?_⟩
  have hdec : Decoder.new enc.writer = .ok {
      reader := (frames.map frame_payload).flatten
      frame_buf := List.replicate (plane_sum w h c) 0
      raw_params := header_params w h fr c
      width := w
      height := h
      framerate := fr
      pixel_aspect := Ratio.new 1 1
      colorspace := c
      y_len := (get_plane_sizes w h c).1
      u_len := (get_plane_sizes w h c).2.1 } := by
    rw [Decoder.new, hwriter]
    exact decode_header w h c fr Limits.default ((frames.map frame_payload).flatten)
      hw hh hw2 hh2 hfn hfd hlim
      (by
        have hdef : Limits.default.bytes = 1073741824 := rfl
        have h63 : (1073741824 : Nat) < 2 ^ 63 := by norm_num
        omega)
  refine ⟨_, hdec, rfl, rfl, rfl, rfl, ?_⟩
  have hrd := read_frames_payloads frames
    { reader := (frames.map frame_payload).flatten
      frame_buf := List.replicate (plane_sum w h c) 0
      raw_params := header_params w h fr c
      width := w
      height := h
      framerate := fr
      pixel_aspect := Ratio.new 1 1
      colorspace := c
      y_len := (get_plane_sizes w h c).1
      u_len := (get_plane_sizes w h c).2.1 } []
    (fun f hf => by
      obtain ⟨a, b, cc, dd⟩ := hframes f hf
      refine ⟨a, b, ?_, dd⟩
      simp only [List.length_replicate, plane_sum]
      rw [cc])
    (by simp)
  obtain ⟨d', hd', hd'reader⟩ := hrd
  exact ⟨d', hd', hd'reader⟩

/-- Witness for C1 at a concrete odd geometry: 3x3 C420 (planes of 9, 4, 4
bytes), framerate 30:1, two frames. -/
theorem c1_roundtrip_witness :
    ∃ enc : Encoder,
      (((EncoderBuilder.new 3 3 (Ratio.new 30 1)).with_colorspace .C420).write_header).write_frames
        [⟨[1, 2, 3, 4, 5, 6, 7, 8, 9], [10, 11, 12, 13], [14, 15, 16, 17], none⟩,
         ⟨[21, 22, 23, 24, 25, 26, 27, 28, 29], [30, 31, 32, 33], [34, 35, 36, 37], none⟩]
        = .ok enc ∧
      ∃ dec : Decoder, Decoder.new enc.writer = .ok dec ∧
        dec.width = 3 ∧ dec.height = 3 ∧ dec.colorspace = .C420 ∧
        dec.framerate = Ratio.new 30 1 ∧
        ∃ dec' : Decoder, dec.read_frames
          ([⟨[1, 2, 3, 4, 5, 6, 7, 8, 9], [10, 11, 12, 13], [14, 15, 16, 17], none⟩,
            ⟨[21, 22, 23, 24, 25, 26, 27, 28, 29], [30, 31, 32, 33], [34, 35, 36, 37],
             none⟩] : List Frame).length
          = .ok ([⟨[1, 2, 3, 4, 5, 6, 7, 8, 9], [10, 11, 12, 13], [14, 15, 16, 17], none⟩,
            ⟨[21, 22, 23, 24, 25, 26, 27, 28, 29], [30, 31, 32, 33], [34, 35, 36, 37],
             none⟩], dec') ∧
          dec'.reader = [] :=
  c1_roundtrip_amended 3 3 .C420 (Ratio.new 30 1)
    [⟨[1, 2, 3, 4, 5, 6, 7, 8, 9], [10, 11, 12, 13], [14, 15, 16, 17], none⟩,
     ⟨[21, 22, 23, 24, 25, 26, 27, 28, 29], [30, 31, 32, 33], [34, 35, 36, 37], none⟩]
    (by decide) (by decide) (by decide) (by decide) (by decide) (by decide)
    (by decide) (by decide)

/-! ### Claim C2: the plane-size calculator -/

/-- C2: for every width `w`, height `h` and colorspace `c`, `get_plane_sizes`
returns `y_len = w * h * bytesPerSample c`; for mono variants the chroma
sizes are zero; for the 4:2:0 variants both chroma sizes are
`ceil(w/2) * ceil(h/2) * bytesPerSample c`; for the 4:2:2 variants both are
`ceil(w/2) * h * bytesPerSample c`; for the 4:4:4 variants both equal the Y
plane size; and `bytesPerSample` is 1 when the bit depth is at most 8,
otherwise 2.  (`ceil(n/2)` is `(n + 1) / 2` in natural division.) -/
theorem c2_plane_sizes (w h : Nat) (c : Colorspace) :
    (get_plane_sizes w h c).1 = w * h * c.get_bytes_per_sample ∧
    c.get_bytes_per_sample = (if c.get_bit_depth ≤ 8 then 1 else 2) ∧
    ((c = .Cmono ∨ c = .Cmono12) →
      (get_plane_sizes w h c).2.1 = 0 ∧ (get_plane_sizes w h c).2.2 = 0) ∧
    ((c = .C420 ∨ c = .C420p10 ∨ c = .C420p12 ∨ c = .C420jpeg ∨ c = .C420paldv ∨
        c = .C420mpeg2) →
      (get_plane_sizes w h c).2.1 = ((w + 1) / 2) * ((h + 1) / 2) * c.get_bytes_per_sample ∧
      (get_plane_sizes w h c).2.2 = ((w + 1) / 2) * ((h + 1) / 2) * c.get_bytes_per_sample) ∧
    ((c = .C422 ∨ c = .C422p10 ∨ c = .C422p12) →
      (get_plane_sizes w h c).2.1 = ((w + 1) / 2) * h * c.get_bytes_per_sample ∧
      (get_plane_sizes w h c).2.2 = ((w + 1) / 2) * h * c.get_bytes_per_sample) ∧
    ((c = .C444 ∨ c = .C444p10 ∨ c = .C444p12) →
      (get_plane_sizes w h c).2.1 = (get_plane_sizes w h c).1 ∧
      (get_plane_sizes w h c).2.2 = (get_plane_sizes w h c).1) := by
  cases c <;>
    simp [get_plane_sizes, Colorspace.get_bytes_per_sample, Colorspace.get_bit_depth]

/-- Witness for C2 at the spec's own examples: for 3x3 and 420 each chroma
plane is 4 bytes, for 3x5 and 422 each chroma plane is 10 bytes. -/
theorem c2_plane_sizes_witness :
    (get_plane_sizes 3 3 Colorspace.C420).2.1 = 4 ∧
    (get_plane_sizes 3 5 Colorspace.C422).2.2 = 10 := by
  constructor
  · rw [((c2_plane_sizes 3 3 Colorspace.C420).2.2.2.1 (Or.inl rfl)).1]
    decide
  · rw [((c2_plane_sizes 3 5 Colorspace.C422).2.2.2.2.1 (Or.inl rfl)).2]
    decide

/-! ### Claim C4: the shape of `Ratio::parse` -/

/-- C4 counterexample: the claim says an input with an empty numerator part
(such as `":1"`) fails with `ParseError::General`; in the code it reaches
the integer parser, which rejects the empty string, so the error is
`ParseError::Int`, not `ParseError::General`. -/
theorem c4_counterexample :
    Ratio.parse [58, 49] = .error (.ParseError .Int) ∧
    (Except.error (Error.ParseError ParseError.Int) : Except Error Ratio) ≠
      .error (.ParseError .General) := by
  exact ⟨rfl, by decide⟩

/-- C4 (amended): `Ratio::parse` splits at most once on the `':'` byte.
When the input contains no `':'` it fails with `ParseError::General`; when
it splits as `a ++ ':' ++ b`, each of the two parts is handed to the
unsigned-integer parser and its error (for example `ParseError::Int` on an
empty or non-numeric part) propagates — the failure is not
`ParseError::General` in that case. -/
theorem c4_amended (v a b : List Nat) :
    (RATIO_SEP ∉ v → Ratio.parse v = .error (.ParseError .General)) ∧
    (RATIO_SEP ∉ a → v = a ++ RATIO_SEP :: b →
      Ratio.parse v =
        match parse_bytes a with
        | .ok num =>
          (match parse_bytes b with
           | .ok den => .ok (Ratio.new num den)
           | .error e => .error e)
        | .error e => .error e) := by
  constructor
  · intro hnm
    rw [Ratio.parse, splitn2_of_not_mem RATIO_SEP v hnm]
  · intro hna hv
    subst hv
    have hred : Ratio.parse (a ++ RATIO_SEP :: b) = (do
        let num ← parse_bytes a
        let den ← parse_bytes b
        Except.ok (Ratio.new num den)) := by
      rw [Ratio.parse, splitn2_append RATIO_SEP a b hna]
    rw [hred]
    cases hpa : parse_bytes a with
    | error e => rfl
    | ok num =>
      cases hpb : parse_bytes b with
      | error e => rfl
      | ok den => rfl

/-- Witness for C4 at concrete inputs: `"12"` (no colon) fails with
`ParseError::General`, `"1:2"` parses to the ratio 1:2. -/
theorem c4_witness :
    Ratio.parse [49, 50] = .error (.ParseError .General) ∧
    Ratio.parse [49, 58, 50] = .ok (Ratio.new 1 2) := by
  constructor
  · exact (c4_amended [49, 50] [] []).1 (by decide)
  · rw [(c4_amended [49, 58, 50] [49] [50]).2 (by decide) rfl]
    rfl

/-! ### Claim C6: the header-scan primitive -/

/-- C6: the header scan (`read_until` with terminator `0x0A` and capacity
1024) fails with `ParseError::General` when 1024 bytes are consumed without
a terminator (whatever follows them), fails with `EOF` when the stream ends
before a terminator appears, succeeds when a terminator is found in time,
and the transport-error conversion normalizes `UnexpectedEof` to `EOF`
while passing every other kind through as `IoError` — never mapping
end-of-stream to a generic `IoError`. -/
theorem c6_read_until (l l' rest : List Nat) (k : IoErrorKind) :
    (l.length = MAX_PARAMS_SIZE → (∀ b ∈ l, b ≠ TERMINATOR) →
      read_until TERMINATOR MAX_PARAMS_SIZE (l ++ rest) = .error (.ParseError .General)) ∧
    (l'.length < MAX_PARAMS_SIZE → (∀ b ∈ l', b ≠ TERMINATOR) →
      read_until TERMINATOR MAX_PARAMS_SIZE l' = .error .EOF) ∧
    (l'.length < MAX_PARAMS_SIZE → (∀ b ∈ l', b ≠ TERMINATOR) →
      read_until TERMINATOR MAX_PARAMS_SIZE (l' ++ TERMINATOR :: rest) = .ok (l', rest)) ∧
    Error.fromIo .UnexpectedEof = .EOF ∧
    (k ≠ .UnexpectedEof → Error.fromIo k = .IoError k) := by
  refine ⟨fun h1 h2 => read_until_capacity TERMINATOR MAX_PARAMS_SIZE l rest h1 h2,
    fun h1 h2 => read_until_eof TERMINATOR l' MAX_PARAMS_SIZE h2 h1,
    fun h1 h2 => read_until_terminated TERMINATOR l' MAX_PARAMS_SIZE rest h2 h1,
    rfl, ?_⟩
  intro hk
  cases k with
  | UnexpectedEof => exact absurd rfl hk
  | Other => rfl

/-- Witness for C6 at concrete inputs: 1024 bytes of `'A'` with no
terminator give `ParseError::General`, a short terminator-free stream gives
`EOF`, a terminated header line is collected, and the two transport-error
conversions. -/
theorem c6_witness :
    read_until TERMINATOR MAX_PARAMS_SIZE (List.replicate 1024 65 ++ [99]) =
      .error (.ParseError .General) ∧
    read_until TERMINATOR MAX_PARAMS_SIZE [70, 82] = .error .EOF ∧
    read_until TERMINATOR MAX_PARAMS_SIZE ([70, 82] ++ TERMINATOR :: [99]) =
      .ok ([70, 82], [99]) ∧
    Error.fromIo .UnexpectedEof = .EOF ∧
    Error.fromIo .Other = .IoError .Other := by
  obtain ⟨h1, h2, h3, h4, h5⟩ := c6_read_until (List.replicate 1024 65) [70, 82] [99] .Other
  refine ⟨h1 (by rw [List.length_replicate]; rfl) ?_, h2 (by decide) (by decide),
    h3 (by decide) (by decide), h4, h5 (by decide)⟩
  intro b hb
  rw [List.eq_of_mem_replicate hb]
  decide

/-! ### Claim C7: frame writing validates plane lengths -/

/-- C7: `Encoder::write_frame` fails with `BadInput` — appending nothing to
the output stream — whenever any of the frame's three plane lengths differs
from the stored expected size, and when all three match it appends exactly
`FRAME`, then (only if the frame carries raw parameters) a space followed
by those bytes, then the `0x0A` terminator, then the Y, U and V planes
concatenated in that order with no padding. -/
theorem c7_write_frame (e : Encoder) (f : Frame) :
    (f.y.length ≠ e.y_len ∨ f.u.length ≠ e.u_len ∨ f.v.length ≠ e.v_len →
      e.write_frame f = (e, .error .BadInput)) ∧
    (f.y.length = e.y_len → f.u.length = e.u_len → f.v.length = e.v_len →
      e.write_frame f =
        ({ e with writer := e.writer ++ FRAME_MAGICK
            ++ (match f.raw_params with
                | some params => FIELD_SEP :: params
                | none => [])
            ++ [TERMINATOR] ++ f.y ++ f.u ++ f.v }, .ok ())) := by
  constructor
  · intro hbad
    rw [Encoder.write_frame, if_pos hbad]
  · intro hy hu hv
    rw [Encoder.write_frame, if_neg (by push_neg; exact ⟨hy, hu, hv⟩)]

/-- Witness for C7 at concrete inputs: a too-short Y plane fails with
`BadInput` leaving the writer untouched; a matching frame appends the
`FRAME` record. -/
theorem c7_write_frame_witness :
    Encoder.write_frame ⟨[1], 2, 1, 1⟩ ⟨[9], [8], [7], none⟩ =
      (⟨[1], 2, 1, 1⟩, .error .BadInput) ∧
    Encoder.write_frame ⟨[], 1, 1, 1⟩ ⟨[9], [8], [7], some [5]⟩ =
      (⟨[70, 82, 65, 77, 69, 32, 5, 10, 9, 8, 7], 1, 1, 1⟩, .ok ()) := by
  constructor
  · exact (c7_write_frame ⟨[1], 2, 1, 1⟩ ⟨[9], [8], [7], none⟩).1 (by decide)
  · rw [(c7_write_frame ⟨[], 1, 1, 1⟩ ⟨[9], [8], [7], some [5]⟩).2 rfl rfl rfl]
    rfl

/-! ### Claim C8: the header byte layout -/

/-- C8: `write_header` emits exactly the bytes `"YUV4MPEG2 "` followed by
`W<width> H<height> F<framerate>`, then `" A<aspect>"` only if the pixel
aspect differs from `1:1`, then `" X<bytes>"` for each vendor extension in
insertion order (`append_vendor_extension` appends at the back), then a
space and the colorspace tag, then the `0x0A` terminator; ratios render as
`num:den`; and the stored plane sizes come from `get_plane_sizes`. -/
theorem c8_write_header (b : EncoderBuilder) (x : VendorExtensionString) :
    (b.write_header).writer =
      [89, 85, 86, 52, 77, 80, 69, 71, 50, 32]
      ++ [87] ++ nat_to_bytes b.width
      ++ [32] ++ [72] ++ nat_to_bytes b.height
      ++ [32] ++ [70] ++ nat_to_bytes b.framerate.num ++ [58] ++ nat_to_bytes b.framerate.den
      ++ (if b.pixel_aspect = Ratio.new 1 1 then []
          else [32] ++ [65] ++ nat_to_bytes b.pixel_aspect.num ++ [58]
            ++ nat_to_bytes b.pixel_aspect.den)
      ++ (b.vendor_extensions.map (fun v => [32] ++ [88] ++ v)).flatten
      ++ [32] ++ (67 :: b.colorspace.tag_value)
      ++ [10] ∧
    (b.append_vendor_extension x).vendor_extensions = b.vendor_extensions ++ [x.val] ∧
    (b.write_header).y_len = (get_plane_sizes b.width b.height b.colorspace).1 ∧
    (b.write_header).u_len = (get_plane_sizes b.width b.height b.colorspace).2.1 ∧
    (b.write_header).v_len = (get_plane_sizes b.width b.height b.colorspace).2.2 := by
  refine ⟨?_, rfl, rfl, rfl, rfl⟩
  by_cases hpa : b.pixel_aspect = Ratio.new 1 1
  · have hcond : ¬ (b.pixel_aspect.num ≠ 1 ∨ b.pixel_aspect.den ≠ 1) := by
      rw [hpa]; simp [Ratio.new]
    rw [EncoderBuilder.write_header]
    simp [hcond, hpa, Ratio.display, Colorspace.debug_bytes, FILE_MAGICK, FIELD_SEP,
      TERMINATOR, RATIO_SEP]
    exact ⟨rfl, rfl⟩
  · have hcond : b.pixel_aspect.num ≠ 1 ∨ b.pixel_aspect.den ≠ 1 := by
      by_contra hc
      push_neg at hc
      refine hpa ?_
      obtain ⟨hn, hd⟩ := hc
      cases hb : b.pixel_aspect with
      | mk n d =>
        rw [hb] at hn hd
        simp at hn hd
        simp [Ratio.new, hn, hd]
    rw [EncoderBuilder.write_header]
    simp [hcond, hpa, Ratio.display, Colorspace.debug_bytes, FILE_MAGICK, FIELD_SEP,
      TERMINATOR, RATIO_SEP]

/-! ### Claim C3: the memory limit guards decoder construction -/

/-- C3: whenever the prologue scan, magic check and token loop succeed and
the frame size the program computes — the release-mode `usize` sum
`y_len + u_len + v_len` of the wrapped plane sizes — exceeds
`limits.bytes`, `Decoder::new_with_limits` fails with `OutOfMemory`; in
the code this check precedes the `vec![0; frame_size]` allocation, which
the model reflects by returning before any `Decoder` value carrying a
frame buffer is built.  Moreover every decoder that is constructed carries
a frame-scratch buffer of at most `limits.bytes` bytes, so no allocation
above the configured limit (in particular none proportional to implausible
declared dimensions) ever occurs; and the default limit is 1 GiB. -/
theorem c3_out_of_memory (stream s2 : List Nat) (limits l2 : Limits)
    (collected rest : List Nat) (acc : HeaderAcc)
    (h1 : read_until TERMINATOR MAX_PARAMS_SIZE stream = .ok (collected, rest))
    (h2 : ¬ (collected.length < FILE_MAGICK.length ∨ ¬ FILE_MAGICK.isPrefixOf collected))
    (h3 : parse_params (split_sep FIELD_SEP (collected.drop FILE_MAGICK.length)) init_acc
      = .ok acc)
    (h4 : ¬ (acc.width = 0 ∨ acc.height = 0))
    (h5 : plane_sum_u acc.width acc.height (acc.colorspace.getD .C420) > limits.bytes) :
    Decoder.new_with_limits stream limits = .error .OutOfMemory ∧
    Limits.default.bytes = 1024 * 1024 * 1024 ∧
    (∀ d : Decoder, Decoder.new_with_limits s2 l2 = .ok d →
      d.frame_buf.length ≤ l2.bytes) := by
  refine ⟨?_, rfl, ?_⟩
  · unfold Decoder.new_with_limits
    split
    · rename_i e heq
      rw [h1] at heq
      exact absurd heq (by simp)
    · rename_i collected' rest' heq
      rw [h1] at heq
      simp only [Except.ok.injEq, Prod.mk.injEq] at heq
      obtain ⟨rfl, rfl⟩ := heq
      rw [if_neg h2]
      dsimp only
      split
      · rename_i e heq2
        rw [h3] at heq2
        exact absurd heq2 (by simp)
      · rename_i acc' heq2
        rw [h3] at heq2
        simp only [Except.ok.injEq] at heq2
        subst heq2
        rw [if_neg h4, if_pos (by simpa [plane_sum_u] using h5)]
  · intro d hd
    obtain ⟨c2, r2, a2, hq1, hq2, hq3, hq4, hlim2, hq5, hq6, hq7, hq8, hq9, hq10,
      hq11, hfb⟩ := new_with_limits_inv s2 l2 d hd
    rw [hfb, List.length_replicate]
    exact hlim2

/-- Witness for C3 at the spec's concrete scenario: limits of 10 bytes and
the header `"YUV4MPEG2 W1000 H1000 C444\n"` give `OutOfMemory`, while the
decoder built from `"YUV4MPEG2 W2 H2\n"` under the default limits carries
a 6-byte frame buffer, within the limit. -/
theorem c3_out_of_memory_witness :
    Decoder.new_with_limits
      [89, 85, 86, 52, 77, 80, 69, 71, 50, 32, 87, 49, 48, 48, 48, 32, 72, 49, 48, 48, 48,
       32, 67, 52, 52, 52, 10] ⟨10⟩ = .error .OutOfMemory ∧
    Limits.default.bytes = 1024 * 1024 * 1024 ∧
    ({ reader := [], frame_buf := List.replicate 6 0, raw_params := [87, 50, 32, 72, 50],
       width := 2, height := 2, framerate := Ratio.new 25 1,
       pixel_aspect := Ratio.new 1 1, colorspace := .C420, y_len := 4,
       u_len := 1 } : Decoder).frame_buf.length ≤ Limits.default.bytes := by
  obtain ⟨ha, hb, hc⟩ := c3_out_of_memory
    [89, 85, 86, 52, 77, 80, 69, 71, 50, 32, 87, 49, 48, 48, 48, 32, 72, 49, 48, 48, 48,
     32, 67, 52, 52, 52, 10]
    [89, 85, 86, 52, 77, 80, 69, 71, 50, 32, 87, 50, 32, 72, 50, 10]
    ⟨10⟩ Limits.default
    [89, 85, 86, 52, 77, 80, 69, 71, 50, 32, 87, 49, 48, 48, 48, 32, 72, 49, 48, 48, 48,
     32, 67, 52, 52, 52] []
    ⟨1000, 1000, Ratio.new 25 1, Ratio.new 1 1, some .C444⟩
    rfl (by decide) rfl (by decide) (by decide)
  exact ⟨ha, hb, hc _ rfl⟩

/-- Release-mode wrap-around is observable: the hostile header
`"YUV4MPEG2 W4294967296 H4294967296 Cmono\n"` declares a mathematical
frame size of `2^64` bytes, but the `usize` product `2^32 * 2^32` wraps to
0, so the computed frame size is 0 and a release build constructs the
decoder successfully with an empty frame buffer (a debug build would panic
at the overflow) — it does not return `OutOfMemory`. -/
theorem new_with_limits_wrap_around :
    Decoder.new_with_limits
      [89, 85, 86, 52, 77, 80, 69, 71, 50, 32,
       87, 52, 50, 57, 52, 57, 54, 55, 50, 57, 54, 32,
       72, 52, 50, 57, 52, 57, 54, 55, 50, 57, 54, 32,
       67, 109, 111, 110, 111, 10] Limits.default
      = .ok {
          reader := []
          frame_buf := []
          raw_params := [87, 52, 50, 57, 52, 57, 54, 55, 50, 57, 54, 32,
            72, 52, 50, 57, 52, 57, 54, 55, 50, 57, 54, 32, 67, 109, 111, 110, 111]
          width := 4294967296
          height := 4294967296
          framerate := Ratio.new 25 1
          pixel_aspect := Ratio.new 1 1
          colorspace := .Cmono
          y_len := 0
          u_len := 0 } ∧
    plane_sum 4294967296 4294967296 .Cmono = 2 ^ 64 := by
  constructor
  · decide
  · decide

/-! ### Claim C9: duplicate prologue tags -/

theorem parse_params_mid (ts1 ts2 : List (List Nat)) (t : List Nat) (acc acc' : HeaderAcc)
    (h : parse_params (ts1 ++ t :: ts2) acc = .ok acc') :
    ∃ a1 a2, parse_params ts1 acc = .ok a1 ∧ parse_param a1 t = .ok a2 ∧
      parse_params ts2 a2 = .ok acc' := by
  rw [parse_params_append] at h
  cases hp1 : parse_params ts1 acc with
  | error e => rw [hp1] at h; exact absurd h (by simp)
  | ok a1 =>
    rw [hp1] at h
    have h' : parse_params (t :: ts2) a1 = .ok acc' := h
    simp only [parse_params] at h'
    cases hp2 : parse_param a1 t with
    | error e => rw [hp2] at h'; exact absurd h' (by simp)
    | ok a2 =>
      rw [hp2] at h'
      exact ⟨a1, a2, rfl, hp2, h'⟩

theorem parse_param_w_inv (a1 a2 : HeaderAcc) (v : List Nat)
    (h : parse_param a1 (87 :: v) = .ok a2) :
    ∃ n, parse_bytes v = .ok n ∧ a2 = { a1 with width := n } := by
  have h' : (match parse_bytes v with
      | .ok w => (.ok { a1 with width := w } : Except Error HeaderAcc)
      | .error e => .error e) = .ok a2 := h
  cases hpb : parse_bytes v with
  | error e => rw [hpb] at h'; exact absurd h' (by simp)
  | ok n =>
    rw [hpb] at h'
    simp only [Except.ok.injEq] at h'
    exact ⟨n, rfl, h'.symm⟩

theorem parse_param_h_inv (a1 a2 : HeaderAcc) (v : List Nat)
    (h : parse_param a1 (72 :: v) = .ok a2) :
    ∃ n, parse_bytes v = .ok n ∧ a2 = { a1 with height := n } := by
  have h' : (match parse_bytes v with
      | .ok n => (.ok { a1 with height := n } : Except Error HeaderAcc)
      | .error e => .error e) = .ok a2 := h
  cases hpb : parse_bytes v with
  | error e => rw [hpb] at h'; exact absurd h' (by simp)
  | ok n =>
    rw [hpb] at h'
    simp only [Except.ok.injEq] at h'
    exact ⟨n, rfl, h'.symm⟩

theorem parse_param_f_inv (a1 a2 : HeaderAcc) (v : List Nat)
    (h : parse_param a1 (70 :: v) = .ok a2) :
    ∃ r, Ratio.parse v = .ok r ∧ a2 = { a1 with framerate := r } := by
  have h' : (match Ratio.parse v with
      | .ok f => (.ok { a1 with framerate := f } : Except Error HeaderAcc)
      | .error e => .error e) = .ok a2 := h
  cases hpb : Ratio.parse v with
  | error e => rw [hpb] at h'; exact absurd h' (by simp)
  | ok r =>
    rw [hpb] at h'
    simp only [Except.ok.injEq] at h'
    exact ⟨r, rfl, h'.symm⟩

theorem parse_param_a_inv (a1 a2 : HeaderAcc) (v : List Nat)
    (h : parse_param a1 (65 :: v) = .ok a2) :
    ∃ r, Ratio.parse v = .ok r ∧ a2 = { a1 with pixel_aspect := r } := by
  have h' : (match Ratio.parse v with
      | .ok f => (.ok { a1 with pixel_aspect := f } : Except Error HeaderAcc)
      | .error e => .error e) = .ok a2 := h
  cases hpb : Ratio.parse v with
  | error e => rw [hpb] at h'; exact absurd h' (by simp)
  | ok r =>
    rw [hpb] at h'
    simp only [Except.ok.injEq] at h'
    exact ⟨r, rfl, h'.symm⟩

theorem parse_param_c_inv (a1 a2 : HeaderAcc) (v : List Nat)
    (h : parse_param a1 (67 :: v) = .ok a2) :
    ∃ c, cs_of_value v = some c ∧ a2 = { a1 with colorspace := some c } := by
  have h' : (match cs_of_value v with
      | some c => (.ok { a1 with colorspace := some c } : Except Error HeaderAcc)
      | none => .error .UnknownColorspace) = .ok a2 := h
  cases hcs : cs_of_value v with
  | none => rw [hcs] at h'; exact absurd h' (by simp)
  | some c =>
    rw [hcs] at h'
    simp only [Except.ok.injEq] at h'
    exact ⟨c, rfl, h'.symm⟩

/-- C9: in the prologue token loop every occurrence of a recognized tag is
parsed — a malformed occurrence fails the whole scan with its own error
even when prior tokens parsed fine and later tokens would override it —
and when the scan succeeds, the stored value of each of the five recognized
tags (`W`, `H`, `F`, `A`, `C`) is the one from its last occurrence. -/
theorem c9_duplicate_tags (ts1 ts2 post : List (List Nat)) (t v : List Nat)
    (acc a acc' : HeaderAcc) (e : Error) :
    (parse_params ts1 acc = .ok a → parse_param a t = .error e →
      parse_params (ts1 ++ t :: post) acc = .error e) ∧
    ((∀ u ∈ ts2, u.head? ≠ some 87) →
      parse_params (ts1 ++ (87 :: v) :: ts2) acc = .ok acc' →
      ∃ n, parse_bytes v = .ok n ∧ acc'.width = n) ∧
    ((∀ u ∈ ts2, u.head? ≠ some 72) →
      parse_params (ts1 ++ (72 :: v) :: ts2) acc = .ok acc' →
      ∃ n, parse_bytes v = .ok n ∧ acc'.height = n) ∧
    ((∀ u ∈ ts2, u.head? ≠ some 70) →
      parse_params (ts1 ++ (70 :: v) :: ts2) acc = .ok acc' →
      ∃ r, Ratio.parse v = .ok r ∧ acc'.framerate = r) ∧
    ((∀ u ∈ ts2, u.head? ≠ some 65) →
      parse_params (ts1 ++ (65 :: v) :: ts2) acc = .ok acc' →
      ∃ r, Ratio.parse v = .ok r ∧ acc'.pixel_aspect = r) ∧
    ((∀ u ∈ ts2, u.head? ≠ some 67) →
      parse_params (ts1 ++ (67 :: v) :: ts2) acc = .ok acc' →
      ∃ c, cs_of_value v = some c ∧ acc'.colorspace = some c) := by
  refine ⟨?_, ?_, ?_, ?_, ?_, ?_⟩
  · intro hp1 hp2
    rw [parse_params_append, hp1]
    have hstep : parse_params (t :: post) a = .error e := by
      simp only [parse_params]
      rw [hp2]
    exact hstep
  · intro hall hok
    obtain ⟨a1, a2, hp1, hp2, hp3⟩ := parse_params_mid ts1 ts2 (87 :: v) acc acc' hok
    obtain ⟨n, hpb, rfl⟩ := parse_param_w_inv a1 a2 v hp2
    exact ⟨n, hpb, (parse_params_fields ts2 _ acc' hp3).1 hall⟩
  · intro hall hok
    obtain ⟨a1, a2, hp1, hp2, hp3⟩ := parse_params_mid ts1 ts2 (72 :: v) acc acc' hok
    obtain ⟨n, hpb, rfl⟩ := parse_param_h_inv a1 a2 v hp2
    exact ⟨n, hpb, (parse_params_fields ts2 _ acc' hp3).2.1 hall⟩
  · intro hall hok
    obtain ⟨a1, a2, hp1, hp2, hp3⟩ := parse_params_mid ts1 ts2 (70 :: v) acc acc' hok
    obtain ⟨r, hpb, rfl⟩ := parse_param_f_inv a1 a2 v hp2
    exact ⟨r, hpb, (parse_params_fields ts2 _ acc' hp3).2.2.1 hall⟩
  · intro hall hok
    obtain ⟨a1, a2, hp1, hp2, hp3⟩ := parse_params_mid ts1 ts2 (65 :: v) acc acc' hok
    obtain ⟨r, hpb, rfl⟩ := parse_param_a_inv a1 a2 v hp2
    exact ⟨r, hpb, (parse_params_fields ts2 _ acc' hp3).2.2.2.1 hall⟩
  · intro hall hok
    obtain ⟨a1, a2, hp1, hp2, hp3⟩ := parse_params_mid ts1 ts2 (67 :: v) acc acc' hok
    obtain ⟨c, hcs, rfl⟩ := parse_param_c_inv a1 a2 v hp2
    exact ⟨c, hcs, (parse_params_fields ts2 _ acc' hp3).2.2.2.2 hall⟩

/-- Witness for C9 at concrete token lists: a malformed first `W` token
(`"Wx"`) fails with `ParseError::Int` even though a well-formed `W1`
follows, and with tokens `W1` then `W2` the stored width comes from the
last occurrence. -/
theorem c9_duplicate_tags_witness :
    parse_params [[87, 120], [87, 49]] init_acc = .error (.ParseError .Int) ∧
    (∃ n, parse_bytes [50] = .ok n ∧
      HeaderAcc.width ⟨2, 0, Ratio.new 25 1, Ratio.new 1 1, none⟩ = n) := by
  constructor
  · exact (c9_duplicate_tags [] [] [[87, 49]] [87, 120] [] init_acc init_acc init_acc
      (.ParseError .Int)).1 rfl rfl
  · exact (c9_duplicate_tags [[87, 49]] [] [] [] [50] init_acc init_acc
      ⟨2, 0, Ratio.new 25 1, Ratio.new 1 1, none⟩ .BadInput).2.1 (by simp) rfl

/-! ### Claim C5: prologue defaults and failure modes -/

/-- C5: during prologue parsing a missing `F` token leaves the framerate at
the default `25:1`, a missing `A` token leaves the pixel aspect at `1:1`,
and a missing `C` token leaves the colorspace unset, which the constructor
defaults to `C420`; a `C` token whose value is not in the recognized table
fails with `UnknownColorspace` (not a generic parse error); and when the
token scan leaves the width or height zero — in particular when `W` or `H`
is absent — construction fails with `ParseError::General`. -/
theorem c5_prologue (ts : List (List Nat)) (v : List Nat) (acc0 : HeaderAcc)
    (stream s2 : List Nat) (limits l2 : Limits) (d : Decoder)
    (collected rest : List Nat) (acc acc1 : HeaderAcc) :
    (parse_params ts init_acc = .ok acc1 →
      ((∀ t ∈ ts, t.head? ≠ some 70) → acc1.framerate = Ratio.new 25 1) ∧
      ((∀ t ∈ ts, t.head? ≠ some 65) → acc1.pixel_aspect = Ratio.new 1 1) ∧
      ((∀ t ∈ ts, t.head? ≠ some 67) → acc1.colorspace = none)) ∧
    (cs_of_value v = none → parse_param acc0 (67 :: v) = .error .UnknownColorspace) ∧
    (Decoder.new_with_limits stream limits = .ok d →
      ((∀ t ∈ split_sep FIELD_SEP d.raw_params, t.head? ≠ some 70) →
        d.framerate = Ratio.new 25 1) ∧
      ((∀ t ∈ split_sep FIELD_SEP d.raw_params, t.head? ≠ some 65) →
        d.pixel_aspect = Ratio.new 1 1) ∧
      ((∀ t ∈ split_sep FIELD_SEP d.raw_params, t.head? ≠ some 67) →
        d.colorspace = .C420)) ∧
    (read_until TERMINATOR MAX_PARAMS_SIZE s2 = .ok (collected, rest) →
      ¬ (collected.length < FILE_MAGICK.length ∨ ¬ FILE_MAGICK.isPrefixOf collected) →
      parse_params (split_sep FIELD_SEP (collected.drop FILE_MAGICK.length)) init_acc
        = .ok acc →
      (acc.width = 0 ∨ acc.height = 0) →
      Decoder.new_with_limits s2 l2 = .error (.ParseError .General)) := by
  refine ⟨?_, ?_, ?_, ?_⟩
  · intro h
    have hf := parse_params_fields ts init_acc acc1 h
    exact ⟨fun ha => (hf.2.2.1 ha).trans rfl, fun ha => (hf.2.2.2.1 ha).trans rfl,
      fun ha => (hf.2.2.2.2 ha).trans rfl⟩
  · intro hcs
    have hred : parse_param acc0 (67 :: v) = (match cs_of_value v with
        | some c => (.ok { acc0 with colorspace := some c } : Except Error HeaderAcc)
        | none => .error .UnknownColorspace) := rfl
    rw [hred, hcs]
  · intro hok
    obtain ⟨collected', rest', acc2, hru, hpp, hw, hh, hlim, hreader, hraw, hwidth,
      hheight, hfr, hpa, hcs2, hfb2⟩ := new_with_limits_inv stream limits d hok
    rw [hraw]
    have hf := parse_params_fields _ init_acc acc2 hpp
    refine ⟨fun ha => ?_, fun ha => ?_, fun ha => ?_⟩
    · rw [hfr, hf.2.2.1 ha]
      rfl
    · rw [hpa, hf.2.2.2.1 ha]
      rfl
    · rw [hcs2, hf.2.2.2.2 ha]
      rfl
  · intro h1 h2 h3 h4
    unfold Decoder.new_with_limits
    split
    · rename_i e heq
      rw [h1] at heq
      exact absurd heq (by simp)
    · rename_i collected' rest' heq
      rw [h1] at heq
      simp only [Except.ok.injEq, Prod.mk.injEq] at heq
      obtain ⟨rfl, rfl⟩ := heq
      rw [if_neg h2]
      dsimp only
      split
      · rename_i e heq2
        rw [h3] at heq2
        exact absurd heq2 (by simp)
      · rename_i acc' heq2
        rw [h3] at heq2
        simp only [Except.ok.injEq] at heq2
        subst heq2
        rw [if_pos h4]

/-- Witness for C5 at concrete inputs: an unrecognized colorspace token
`Cxyz` fails with `UnknownColorspace`; the header `"YUV4MPEG2 W2 H2\n"`
(no `F`, `A`, `C` tokens) decodes with framerate `25:1`, pixel aspect
`1:1`, colorspace `C420`; the header `"YUV4MPEG2 W0 H2\n"` fails with
`ParseError::General`. -/
theorem c5_prologue_witness :
    parse_param init_acc (67 :: [120, 121, 122]) = .error .UnknownColorspace ∧
    (∃ d, Decoder.new_with_limits
        [89, 85, 86, 52, 77, 80, 69, 71, 50, 32, 87, 50, 32, 72, 50, 10]
        Limits.default = .ok d ∧
      d.framerate = Ratio.new 25 1 ∧ d.pixel_aspect = Ratio.new 1 1 ∧
      d.colorspace = .C420) ∧
    Decoder.new_with_limits
      [89, 85, 86, 52, 77, 80, 69, 71, 50, 32, 87, 48, 32, 72, 50, 10]
      Limits.default = .error (.ParseError .General) := by
  have base := c5_prologue [[87, 50], [72, 50]] [120, 121, 122] init_acc
    [89, 85, 86, 52, 77, 80, 69, 71, 50, 32, 87, 50, 32, 72, 50, 10]
    [89, 85, 86, 52, 77, 80, 69, 71, 50, 32, 87, 48, 32, 72, 50, 10]
    Limits.default Limits.default
    { reader := [], frame_buf := List.replicate 6 0, raw_params := [87, 50, 32, 72, 50],
      width := 2, height := 2, framerate := Ratio.new 25 1,
      pixel_aspect := Ratio.new 1 1, colorspace := .C420, y_len := 4, u_len := 1 }
    [89, 85, 86, 52, 77, 80, 69, 71, 50, 32, 87, 48, 32, 72, 50] []
    ⟨0, 2, Ratio.new 25 1, Ratio.new 1 1, none⟩
    ⟨2, 2, Ratio.new 25 1, Ratio.new 1 1, none⟩
  refine ⟨base.2.1 rfl, ⟨_, rfl, ?_, ?_, ?_⟩, base.2.2.2 rfl (by decide) rfl (by decide)⟩
  · exact (base.2.2.1 rfl).1 (by decide)
  · exact (base.2.2.1 rfl).2.1 (by decide)
  · exact (base.2.2.1 rfl).2.2 (by decide)

/-! ### Claim C10: frame raw parameters are written verbatim -/

/-- C10: `write_frame` validates only the three plane lengths; whenever
they match, the call succeeds for every raw-parameter byte sequence, which
is written to the stream verbatim and unvalidated — including sequences
containing the space byte or the `0x0A` terminator. -/
theorem c10_raw_params_verbatim (e : Encoder) (y u v params : List Nat)
    (hy : y.length = e.y_len) (hu : u.length = e.u_len) (hv : v.length = e.v_len) :
    e.write_frame ⟨y, u, v, some params⟩ =
      ({ e with writer := e.writer ++ FRAME_MAGICK ++ FIELD_SEP :: params
          ++ [TERMINATOR] ++ y ++ u ++ v }, .ok ()) := by
  rw [Encoder.write_frame, if_neg (by push_neg; exact ⟨hy, hu, hv⟩)]

/-- Witness for C10: raw parameters `[0x20, 0x0A]` — a space and a
terminator — are accepted and written verbatim. -/
theorem c10_raw_params_witness :
    Encoder.write_frame ⟨[], 1, 1, 1⟩ ⟨[1], [2], [3], some [32, 10]⟩ =
      (⟨[70, 82, 65, 77, 69, 32, 32, 10, 10, 1, 2, 3], 1, 1, 1⟩, .ok ()) := by
  rw [c10_raw_params_verbatim ⟨[], 1, 1, 1⟩ [1] [2] [3] [32, 10] rfl rfl rfl]
  rfl

end Y4m
